import Mathlib

/-! # AlphaAgents backtesting engine: a shallow embedding

This file embeds the numerical core of `src/AlphaAgents/backtesting.py`
(class `PortfolioBacktester`) and proves properties of it.

Modelling conventions:
* Prices, returns and weights are exact rationals (`ℚ`); metric values that the
  source produces with numpy square roots and float powers live in `ℝ`.
* A pandas `NaN` metric value is modelled as `none : Option ℝ`.  In particular
  the pandas sample standard deviation (`ddof = 1`) of fewer than two
  observations is `NaN` (`sampleStd` returns `none` there), and the guards
  `volatility > 0` / `tracking_error > 0` of the source are false at `NaN`,
  which `ratioGuard` mirrors.
* A Python exception escaping a function is an `Except.error`; the only
  exception reachable in the embedded fragment is `ZeroDivisionError`
  (`252 / len(returns)` at line 89 and `v / total_weight` at line 266).
* Only the `Close` column of the downloaded data frames is ever used, so a data
  frame is a `Series` of dated closing prices.  The market-data provider is a
  function `String → Option Series`; `none` models both an empty download and a
  raised provider error, which `fetch_historical_data` treats alike
  (lines 51-66).  The requested date window is part of the provider closure;
  the `start_date` / `end_date` strings are threaded through as metadata only.
* `Real.rpow` stands in for the float power `**` in `annualized_return`
  (line 89).  For a negative base numpy would produce `NaN` where `Real.rpow`
  is total; no property below touches that regime.
* Division by zero in `ℚ` yields `0` where pandas would produce `inf`
  (a zero price in `pct_change`, a zero running maximum in the drawdown);
  no property below touches those regimes either.
-/

namespace Alpha

/-- A price or return series: `(trading date, value)` pairs.  The provider
contract has dates strictly increasing with no duplicates. -/
abbrev Series := List (Nat × ℚ)

/-- The most recent observation of `ps` on or before date `d`, if any.  On the
union date index this is exactly the content `fillna(method='ffill')` leaves in
the row of date `d` (backtesting.py lines 187 / 282): the observation with the
greatest date `≤ d`. -/
def lastAt (ps : Series) (d : Nat) : Option (Nat × ℚ) :=
  (ps.filter (fun p => decide (p.1 ≤ d))).foldl
    (fun acc p =>
      match acc with
      | none => some p
      | some q => if q.1 ≤ p.1 then some p else some q)
    none

/-- The forward-filled price of `ps` at date `d` (meaningful only where
`lastAt` is `some`, which is what the aligned index guarantees). -/
def priceAt (ps : Series) (d : Nat) : ℚ :=
  ((lastAt ps d).map Prod.snd).getD 0

/-- Insertion into an ascending list of dates. -/
def insertSorted (d : Nat) : List Nat → List Nat
  | [] => [d]
  | e :: es => if d ≤ e then d :: e :: es else e :: insertSorted d es

/-- Ascending insertion sort of a date list (the pandas union index is sorted
ascending). -/
def sortDates (l : List Nat) : List Nat :=
  l.foldr insertSorted []

/-- The union of the date indices of all fetched tickers: the row index of
`pd.DataFrame({ticker: closes})` (lines 181-184 / 277-280). -/
def unionDates (hd : List (String × Series)) : List Nat :=
  sortDates (hd.foldr (fun p acc => p.2.map Prod.fst ++ acc) []).dedup

/-- The aligned date index: union rows that survive
`fillna(method='ffill').dropna()` (lines 187 / 282), i.e. the rows where every
ticker already has an observation at or before the row's date. -/
def alignedDates (hd : List (String × Series)) : List Nat :=
  (unionDates hd).filter (fun d => hd.all (fun p => (lastAt p.2 d).isSome))

/-- Helper for `pctChange`: simple returns against the running previous value. -/
def pctChangeAux (prev : ℚ) : Series → Series
  | [] => []
  | p :: rest => (p.1, p.2 / prev - 1) :: pctChangeAux p.2 rest

/-- `series.pct_change().dropna()`: simple percentage returns, the first row
(which has no prior price) dropped (lines 70, 196, 291). -/
def pctChange : Series → Series
  | [] => []
  | p :: rest => pctChangeAux p.2 rest

/-- `calculate_returns` (lines 68-70): daily returns of a close-price series. -/
def calculate_returns (data : Series) : Series :=
  pctChange data

/-- Helper for `dedupKeys`: entries whose key was already seen are dropped. -/
def dedupKeysAux (seen : List String) : List (String × Series) → List (String × Series)
  | [] => []
  | p :: rest =>
      if seen.contains p.1 then dedupKeysAux seen rest
      else p :: dedupKeysAux (p.1 :: seen) rest

/-- Key dedup mirroring Python dict insertion semantics: one slot per ticker,
at the position of its first assignment.  (A duplicate ticker in the request
would download the same history again into the same dict slot, so keeping the
first value is equivalent.) -/
def dedupKeys (l : List (String × Series)) : List (String × Series) :=
  dedupKeysAux [] l

/-- One iteration of the download loop (lines 51-64): a provider error or an
empty history omits the ticker. -/
def fetchOne (provider : String → Option Series) (t : String) :
    Option (String × Series) :=
  match provider t with
  | none => none
  | some df => if df.isEmpty then none else some (t, df)

/-- `fetch_historical_data` (lines 27-66): best-effort per ticker. -/
def fetch_historical_data (provider : String → Option Series)
    (tickers : List String) : List (String × Series) :=
  dedupKeys (tickers.filterMap (fetchOne provider))

/-- The portfolio price mapping used to build the price matrix: all fetched
tickers with the benchmark popped out (lines 171-184 / 269-280). -/
def hdOf (provider : String → Option Series) (tickers : List String)
    (benchmark : String) : List (String × Series) :=
  (fetch_historical_data provider (tickers ++ [benchmark])).filter
    (fun p => p.1 != benchmark)

/-- The benchmark's own fetched history, the value `historical_data.pop`
returns (lines 178 / 274). -/
def benchDataOf (provider : String → Option Series) (tickers : List String)
    (benchmark : String) : Option Series :=
  (fetch_historical_data provider (tickers ++ [benchmark])).lookup benchmark

/-- Per-ticker return columns of the aligned price matrix:
`prices.pct_change().dropna()` (lines 196 / 291).  Every column is indexed by
`dates.tail`. -/
def alignedReturnColumns (hd : List (String × Series)) (dates : List Nat) :
    List (String × Series) :=
  hd.map (fun p => (p.1, pctChange (dates.map (fun d => (d, priceAt p.2 d)))))

/-- Elementwise sum of equal-length columns; Python's `sum` of aligned pandas
series starting from `0`. -/
def sumColumns : List (List ℚ) → List ℚ
  | [] => []
  | [c] => c
  | c :: cs => List.zipWith (fun a b => a + b) c (sumColumns cs)

/-- `returns.mean(axis=1)` (line 199): the row sum divided by the number of
columns. -/
def rowMeanVals (cols : List (List ℚ)) : List ℚ :=
  (sumColumns cols).map (fun s => s / (cols.length : ℚ))

/-- The equal-weight portfolio return series (line 199). -/
def eqwReturnsOf (hd : List (String × Series)) (dates : List Nat) : Series :=
  dates.tail.zip
    (rowMeanVals ((alignedReturnColumns hd dates).map (fun p => p.2.map Prod.snd)))

/-- `sum(returns[ticker] * portfolio_weights.get(ticker, 0) for ticker in
returns.columns)` (lines 294-297): a ticker absent from the mapping gets
weight 0. -/
def weightedVals (cols : List (String × Series)) (w : List (String × ℚ)) :
    List ℚ :=
  sumColumns (cols.map (fun p =>
    (p.2.map Prod.snd).map (fun r => r * ((w.lookup p.1).getD 0))))

/-- The weighted portfolio return series (lines 294-297). -/
def wtdReturnsOf (hd : List (String × Series)) (dates : List Nat)
    (w : List (String × ℚ)) : Series :=
  dates.tail.zip (weightedVals (alignedReturnColumns hd dates) w)

/-- `(1 + returns).cumprod()` scaled by a starting value `acc`. -/
def cumprodVals (acc : ℚ) : List ℚ → List ℚ
  | [] => []
  | r :: rs => (acc * (1 + r)) :: cumprodVals (acc * (1 + r)) rs

/-- `initial_capital * (1 + portfolio_returns).cumprod()` (lines 202 / 300),
dates kept. -/
def portfolioValueSeries (cap : ℚ) : Series → Series
  | [] => []
  | p :: rest => (p.1, cap * (1 + p.2)) :: portfolioValueSeries (cap * (1 + p.2)) rest

/-- Helper for the expanding maximum. -/
def runningMaxAux (m : ℚ) : List ℚ → List ℚ
  | [] => []
  | c :: cs => (max m c) :: runningMaxAux (max m c) cs

/-- `cumulative.expanding().max()` (line 102). -/
def runningMaxVals : List ℚ → List ℚ
  | [] => []
  | c :: cs => c :: runningMaxAux c cs

/-- Maximum of a return list (`returns.max()`, line 117); the `[]` case is
unreachable in the source (the length-0 series has raised earlier). -/
def listMax : List ℚ → ℚ
  | [] => 0
  | x :: xs => xs.foldl max x

/-- Minimum of a list (`drawdown.min()` line 104, `returns.min()` line 118). -/
def listMin : List ℚ → ℚ
  | [] => 0
  | x :: xs => xs.foldl min x

/-- pandas sample standard deviation (`ddof = 1`, line 92): `NaN` (here `none`)
for fewer than two observations, otherwise `√(Σ (r - mean)² / (n - 1))`. -/
noncomputable def sampleStd (vals : List ℚ) : Option ℝ :=
  if vals.length < 2 then none
  else
    some (Real.sqrt
      (((vals.map (fun r =>
          (r - vals.sum / (vals.length : ℚ)) ^ 2)).sum / ((vals.length : ℚ) - 1) : ℚ)))

/-- `total_return = (1 + returns).prod() - 1` (line 88). -/
def totalReturnOf (vals : List ℚ) : ℚ :=
  (vals.map (fun r => 1 + r)).prod - 1

/-- `annualized_return = (1 + total_return) ** (252 / len(returns)) - 1`
(line 89); the caller has already ruled out `len(returns) = 0`. -/
noncomputable def annualizedReturnOf (vals : List ℚ) : ℝ :=
  Real.rpow (1 + (totalReturnOf vals : ℝ)) ((252 : ℝ) / (vals.length : ℝ)) - 1

/-- `volatility = returns.std() * np.sqrt(252)` (line 92); `NaN` propagates. -/
noncomputable def volatilityOf (vals : List ℚ) : Option ℝ :=
  (sampleStd vals).map (fun s => s * Real.sqrt 252)

/-- `downside_volatility` (lines 93-94): the annualized std of the negative
returns, the literal `0` when there are none, `NaN` when there is exactly
one. -/
noncomputable def downsideVolatilityOf (vals : List ℚ) : Option ℝ :=
  if 0 < (vals.filter (fun r => decide (r < 0))).length then
    (sampleStd (vals.filter (fun r => decide (r < 0)))).map
      (fun s => s * Real.sqrt 252)
  else some 0

/-- The guarded quotient pattern `num / den if den > 0 else 0` of lines 97, 98
and 130, including its behaviour on `NaN` (`NaN > 0` is false, so `0`). -/
noncomputable def ratioGuard (num : ℝ) : Option ℝ → ℝ
  | some v => if v > 0 then num / v else 0
  | none => 0

/-- `max_drawdown` (lines 100-104): minimum of
`(cumulative - running_max) / running_max`. -/
def maxDrawdownOf (vals : List ℚ) : ℚ :=
  listMin (List.zipWith (fun x m => (x - m) / m)
    (cumprodVals 1 vals) (runningMaxVals (cumprodVals 1 vals)))

/-- `win_rate` (line 107), with the source's own `len(returns) > 0` guard. -/
def winRateOf (vals : List ℚ) : ℚ :=
  if 0 < vals.length then
    ((vals.filter (fun r => decide (0 < r))).length : ℚ) / (vals.length : ℚ)
  else 0

/-- The metrics dictionary literal of lines 109-119, in source order.
Percentage-valued metrics are scaled by 100; `downside_volatility` is not an
entry. -/
noncomputable def baseMetrics (vals : List ℚ) : List (String × Option ℝ) :=
  [("total_return", some ((totalReturnOf vals : ℝ) * 100)),
   ("annualized_return", some (annualizedReturnOf vals * 100)),
   ("volatility", (volatilityOf vals).map (fun v => v * 100)),
   ("sharpe_ratio", some (ratioGuard (annualizedReturnOf vals) (volatilityOf vals))),
   ("sortino_ratio", some (ratioGuard (annualizedReturnOf vals) (downsideVolatilityOf vals))),
   ("max_drawdown", some ((maxDrawdownOf vals : ℝ) * 100)),
   ("win_rate", some ((winRateOf vals : ℝ) * 100)),
   ("best_day", some ((listMax vals : ℝ) * 100)),
   ("worst_day", some ((listMin vals : ℝ) * 100))]

/-- `returns.align(benchmark_returns, join='inner')` (lines 123-124): the pairs
of values at common dates, in the order of the left series. -/
def innerJoin (xs ys : Series) : List (ℚ × ℚ) :=
  xs.filterMap (fun p => (ys.lookup p.1).map (fun y => (p.2, y)))

/-- Pearson correlation of two equally long value lists (pandas `corr`,
lines 127 / 217): `NaN` (`none`) when either side has zero squared deviation
(constant series, a single point, or no points). -/
noncomputable def pearson (xs ys : List ℚ) : Option ℝ :=
  if ((xs.map (fun a => (a - xs.sum / (xs.length : ℚ)) ^ 2)).sum = 0) ∨
     ((ys.map (fun b => (b - ys.sum / (ys.length : ℚ)) ^ 2)).sum = 0) then none
  else
    some ((((List.zipWith
        (fun a b => (a - xs.sum / (xs.length : ℚ)) * (b - ys.sum / (ys.length : ℚ)))
        xs ys).sum : ℚ) : ℝ) /
      Real.sqrt ((((xs.map (fun a => (a - xs.sum / (xs.length : ℚ)) ^ 2)).sum *
        (ys.map (fun b => (b - ys.sum / (ys.length : ℚ)) ^ 2)).sum : ℚ) : ℝ)))

/-- The benchmark-comparison entries of lines 122-137, produced when the
aligned intersection is non-empty.  `alpha` uses the total return of the full
benchmark series (line 132), not of the aligned one. -/
noncomputable def benchMetrics (returns : Series) (b : Series) :
    List (String × Option ℝ) :=
  if 0 < (innerJoin returns b).length then
    [("correlation_to_benchmark",
        pearson ((innerJoin returns b).map Prod.fst) ((innerJoin returns b).map Prod.snd)),
     ("tracking_error",
        ((sampleStd (List.zipWith (fun x y => x - y)
            ((innerJoin returns b).map Prod.fst) ((innerJoin returns b).map Prod.snd))).map
          (fun s => s * Real.sqrt 252)).map (fun v => v * 100)),
     ("information_ratio",
        some (ratioGuard
          ((((List.zipWith (fun x y => x - y)
                ((innerJoin returns b).map Prod.fst) ((innerJoin returns b).map Prod.snd)).sum /
              ((List.zipWith (fun x y => x - y)
                ((innerJoin returns b).map Prod.fst) ((innerJoin returns b).map Prod.snd)).length : ℚ) : ℚ) : ℝ) * 252)
          ((sampleStd (List.zipWith (fun x y => x - y)
              ((innerJoin returns b).map Prod.fst) ((innerJoin returns b).map Prod.snd))).map
            (fun s => s * Real.sqrt 252)))),
     ("alpha",
        some (((totalReturnOf (returns.map Prod.snd) - totalReturnOf (b.map Prod.snd) : ℚ) : ℝ) * 100))]
  else []

/-- `calculate_performance_metrics` (lines 72-139).  For the empty series the
exponent `252 / len(returns)` of line 89 raises `ZeroDivisionError` before any
metric is produced; otherwise the dictionary of lines 109-119 is returned, with
the benchmark-comparison entries of lines 122-137 appended when a non-empty
benchmark return series was supplied. -/
noncomputable def calculate_performance_metrics (returns : Series)
    (benchmark_returns : Option Series) :
    Except String (List (String × Option ℝ)) :=
  if (returns.map Prod.snd).length = 0 then .error "ZeroDivisionError"
  else
    .ok (baseMetrics (returns.map Prod.snd) ++
      match benchmark_returns with
      | none => []
      | some b => if 0 < b.length then benchMetrics returns b else [])

/-- `returns.corr()` (lines 217 / 322): the full pairwise Pearson matrix of the
aligned instrument return columns, as a nested mapping. -/
noncomputable def correlationMatrix (cols : List (String × Series)) :
    List (String × List (String × Option ℝ)) :=
  cols.map (fun p =>
    (p.1, cols.map (fun q => (q.1, pearson (p.2.map Prod.snd) (q.2.map Prod.snd)))))

/-- Weight validation of lines 262-266: when the sum deviates from 1 by more
than 0.01 every weight is divided by the sum.  For a non-empty mapping with
sum exactly 0 the first division `v / total_weight` raises
`ZeroDivisionError`; for the empty mapping the comprehension performs no
division and yields the empty mapping. -/
def normalizeWeights (w : List (String × ℚ)) : Except String (List (String × ℚ)) :=
  if |(w.map Prod.snd).sum - 1| > 1 / 100 then
    if (w.map Prod.snd).sum = 0 ∧ w ≠ [] then .error "ZeroDivisionError"
    else .ok (w.map (fun p => (p.1, p.2 / (w.map Prod.snd).sum)))
  else .ok w

/-- Sequencing of fallible per-element computations (the `for` loop of
lines 211-214 / 309-312, which lets any exception escape). -/
def mapExcept (f : α → Except String β) : List α → Except String (List β)
  | [] => .ok []
  | a :: as => (f a).bind (fun b => (mapExcept f as).map (fun bs => b :: bs))

/-- The per-instrument metric loop (lines 210-214 / 308-312): each ticker's own
aligned return column through `calculate_performance_metrics`, no benchmark. -/
noncomputable def individualMetricsOf (cols : List (String × Series)) :
    Except String (List (String × List (String × Option ℝ))) :=
  mapExcept (fun p => (calculate_performance_metrics p.2 none).map (fun m => (p.1, m))) cols

/-- The result dictionary of lines 219-231 / 314-327.  `portfolio_weights` is
`none` for the equal-weight mode, whose dictionary has no such key. -/
structure BacktestResult where
  portfolio_metrics : List (String × Option ℝ)
  individual_metrics : List (String × List (String × Option ℝ))
  portfolio_weights : Option (List (String × ℚ))
  portfolio_returns : Series
  portfolio_value : Series
  final_value : ℚ
  total_return_pct : ℚ
  correlation_matrix : List (String × List (String × Option ℝ))
  tickers : List String
  start_date : String
  end_date : String
  trading_days : Nat

instance : Inhabited BacktestResult :=
  ⟨⟨[], [], none, [], [], 0, 0, [], [], "", "", 0⟩⟩

/-- `backtest_equal_weight_portfolio` (lines 141-234).  Returns `.ok none` for
the `{}` of line 191 (empty aligned matrix), `.error` for an uncaught
exception, and `.ok (some r)` for a populated result. -/
noncomputable def backtest_equal_weight_portfolio (provider : String → Option Series)
    (tickers : List String) (start_date end_date benchmark : String)
    (initial_capital : ℚ) : Except String (Option BacktestResult) :=
  if (alignedDates (hdOf provider tickers benchmark)).isEmpty then .ok none
  else
    (calculate_performance_metrics
        (eqwReturnsOf (hdOf provider tickers benchmark)
          (alignedDates (hdOf provider tickers benchmark)))
        ((benchDataOf provider tickers benchmark).map calculate_returns)).bind
      (fun pm =>
        (individualMetricsOf (alignedReturnColumns (hdOf provider tickers benchmark)
            (alignedDates (hdOf provider tickers benchmark)))).bind
          (fun im =>
            .ok (some
              { portfolio_metrics := pm
                individual_metrics := im
                portfolio_weights := none
                portfolio_returns := eqwReturnsOf (hdOf provider tickers benchmark)
                  (alignedDates (hdOf provider tickers benchmark))
                portfolio_value := portfolioValueSeries initial_capital
                  (eqwReturnsOf (hdOf provider tickers benchmark)
                    (alignedDates (hdOf provider tickers benchmark)))
                final_value := ((portfolioValueSeries initial_capital
                  (eqwReturnsOf (hdOf provider tickers benchmark)
                    (alignedDates (hdOf provider tickers benchmark)))).map Prod.snd).getLastD 0
                total_return_pct := (((portfolioValueSeries initial_capital
                  (eqwReturnsOf (hdOf provider tickers benchmark)
                    (alignedDates (hdOf provider tickers benchmark)))).map Prod.snd).getLastD 0 /
                  initial_capital - 1) * 100
                correlation_matrix := correlationMatrix
                  (alignedReturnColumns (hdOf provider tickers benchmark)
                    (alignedDates (hdOf provider tickers benchmark)))
                tickers := (hdOf provider tickers benchmark).map Prod.fst
                start_date := start_date
                end_date := end_date
                trading_days := (alignedDates (hdOf provider tickers benchmark)).length })))

/-- `backtest_weighted_portfolio` (lines 236-330): weight validation first
(lines 262-266), then the same pipeline with the weight-dot-product portfolio
returns, the tickers being the keys of the weight mapping (line 269). -/
noncomputable def backtest_weighted_portfolio (provider : String → Option Series)
    (portfolio_weights : List (String × ℚ)) (start_date end_date benchmark : String)
    (initial_capital : ℚ) : Except String (Option BacktestResult) :=
  (normalizeWeights portfolio_weights).bind (fun pw =>
    if (alignedDates (hdOf provider (pw.map Prod.fst) benchmark)).isEmpty then .ok none
    else
      (calculate_performance_metrics
          (wtdReturnsOf (hdOf provider (pw.map Prod.fst) benchmark)
            (alignedDates (hdOf provider (pw.map Prod.fst) benchmark)) pw)
          ((benchDataOf provider (pw.map Prod.fst) benchmark).map calculate_returns)).bind
        (fun pm =>
          (individualMetricsOf (alignedReturnColumns (hdOf provider (pw.map Prod.fst) benchmark)
              (alignedDates (hdOf provider (pw.map Prod.fst) benchmark)))).bind
            (fun im =>
              .ok (some
                { portfolio_metrics := pm
                  individual_metrics := im
                  portfolio_weights := some pw
                  portfolio_returns := wtdReturnsOf (hdOf provider (pw.map Prod.fst) benchmark)
                    (alignedDates (hdOf provider (pw.map Prod.fst) benchmark)) pw
                  portfolio_value := portfolioValueSeries initial_capital
                    (wtdReturnsOf (hdOf provider (pw.map Prod.fst) benchmark)
                      (alignedDates (hdOf provider (pw.map Prod.fst) benchmark)) pw)
                  final_value := ((portfolioValueSeries initial_capital
                    (wtdReturnsOf (hdOf provider (pw.map Prod.fst) benchmark)
                      (alignedDates (hdOf provider (pw.map Prod.fst) benchmark)) pw)).map
                        Prod.snd).getLastD 0
                  total_return_pct := (((portfolioValueSeries initial_capital
                    (wtdReturnsOf (hdOf provider (pw.map Prod.fst) benchmark)
                      (alignedDates (hdOf provider (pw.map Prod.fst) benchmark)) pw)).map
                        Prod.snd).getLastD 0 / initial_capital - 1) * 100
                  correlation_matrix := correlationMatrix
                    (alignedReturnColumns (hdOf provider (pw.map Prod.fst) benchmark)
                      (alignedDates (hdOf provider (pw.map Prod.fst) benchmark)))
                  tickers := (hdOf provider (pw.map Prod.fst) benchmark).map Prod.fst
                  start_date := start_date
                  end_date := end_date
                  trading_days := (alignedDates (hdOf provider (pw.map Prod.fst) benchmark)).length }))))

/-- The populated result of a successful backtest call (`default` on the empty
or failed outcomes); used to state concrete instances. -/
def unwrapOk (res : Except String (Option BacktestResult)) : BacktestResult :=
  match res with
  | .ok (some r) => r
  | _ => default

/-- The ticker list of a populated result, `none` on the empty or failed
outcomes. -/
def tickersOf (res : Except String (Option BacktestResult)) : Option (List String) :=
  match res with
  | .ok (some r) => some r.tickers
  | _ => none

/-- The value stored under key `k` of a successfully computed metric record. -/
def lookupMetric (k : String) (res : Except String (List (String × Option ℝ))) :
    Option (Option ℝ) :=
  match res with
  | .ok m => m.lookup k
  | .error _ => none

/-- A two-ticker market-data provider with histories `psA` for "A" and `psB`
for "B" and no data for any other symbol; used to state concrete scenarios. -/
def twoTickerProvider (psA psB : Series) : String → Option Series :=
  fun t => if t = "A" then some psA else if t = "B" then some psB else none

/-- The key list of a successfully computed metric record. -/
def metricKeys (res : Except String (List (String × Option ℝ))) :
    Option (List String) :=
  match res with
  | .ok m => some (m.map Prod.fst)
  | .error _ => none

lemma lookup_append_some {β : Type} {l₁ l₂ : List (String × β)} {a : String} {v : β}
    (h : l₁.lookup a = some v) : (l₁ ++ l₂).lookup a = some v := by
  induction l₁ with
  | nil => simp [List.lookup] at h
  | cons p l ih =>
    obtain ⟨k, b⟩ := p
    rw [List.cons_append]
    by_cases hba : a = k
    · subst hba
      simpa [List.lookup] using h
    · have hb : (a == k) = false := beq_eq_false_iff_ne.mpr hba
      simp only [List.lookup, hb] at h ⊢
      exact ih h

lemma sampleStd_replicate (n : Nat) (c : ℚ) (hn : 2 ≤ n) :
    sampleStd (List.replicate n c) = some 0 := by
  have hne : ((n : ℚ)) ≠ 0 := Nat.cast_ne_zero.mpr (by omega)
  have hm : (List.replicate n c).sum / (((List.replicate n c).length : ℚ)) = c := by
    rw [List.sum_replicate, List.length_replicate, nsmul_eq_mul]
    field_simp
  unfold sampleStd
  rw [if_neg (by simp; omega)]
  rw [show ((List.replicate n c).map
        (fun r => (r - (List.replicate n c).sum / (((List.replicate n c).length : ℚ))) ^ 2)) =
      List.replicate n 0 by
    rw [List.map_replicate, hm]
    simp]
  simp

lemma volatilityOf_replicate (n : Nat) (c : ℚ) (hn : 2 ≤ n) :
    volatilityOf (List.replicate n c) = some 0 := by
  unfold volatilityOf
  rw [sampleStd_replicate n c hn]
  simp

/-- The `ratioGuard` of a genuine zero denominator is `0` (line 97's guard). -/
lemma ratioGuard_zero (num : ℝ) : ratioGuard num (some 0) = 0 := by
  simp [ratioGuard]

lemma eqw_ok_some_inv {provider : String → Option Series} {tickers : List String}
    {sd ed bmk : String} {cap : ℚ} {r : BacktestResult}
    (h : backtest_equal_weight_portfolio provider tickers sd ed bmk cap = .ok (some r)) :
    ∃ pm im,
      calculate_performance_metrics
          (eqwReturnsOf (hdOf provider tickers bmk) (alignedDates (hdOf provider tickers bmk)))
          ((benchDataOf provider tickers bmk).map calculate_returns) = .ok pm ∧
      individualMetricsOf (alignedReturnColumns (hdOf provider tickers bmk)
          (alignedDates (hdOf provider tickers bmk))) = .ok im ∧
      r = { portfolio_metrics := pm
            individual_metrics := im
            portfolio_weights := none
            portfolio_returns := eqwReturnsOf (hdOf provider tickers bmk)
              (alignedDates (hdOf provider tickers bmk))
            portfolio_value := portfolioValueSeries cap
              (eqwReturnsOf (hdOf provider tickers bmk)
                (alignedDates (hdOf provider tickers bmk)))
            final_value := ((portfolioValueSeries cap
              (eqwReturnsOf (hdOf provider tickers bmk)
                (alignedDates (hdOf provider tickers bmk)))).map Prod.snd).getLastD 0
            total_return_pct := (((portfolioValueSeries cap
              (eqwReturnsOf (hdOf provider tickers bmk)
                (alignedDates (hdOf provider tickers bmk)))).map Prod.snd).getLastD 0 /
              cap - 1) * 100
            correlation_matrix := correlationMatrix
              (alignedReturnColumns (hdOf provider tickers bmk)
                (alignedDates (hdOf provider tickers bmk)))
            tickers := (hdOf provider tickers bmk).map Prod.fst
            start_date := sd
            end_date := ed
            trading_days := (alignedDates (hdOf provider tickers bmk)).length } := by
  unfold backtest_equal_weight_portfolio at h
  split at h
  · exact absurd h (by simp)
  · cases hpm : calculate_performance_metrics
        (eqwReturnsOf (hdOf provider tickers bmk) (alignedDates (hdOf provider tickers bmk)))
        ((benchDataOf provider tickers bmk).map calculate_returns) with
    | error e => rw [hpm] at h; simp [Except.bind] at h
    | ok pm =>
      rw [hpm] at h
      simp only [Except.bind] at h
      cases him : individualMetricsOf (alignedReturnColumns (hdOf provider tickers bmk)
          (alignedDates (hdOf provider tickers bmk))) with
      | error e => rw [him] at h; simp [Except.bind] at h
      | ok im =>
        rw [him] at h
        simp only [Except.bind] at h
        refine ⟨pm, im, rfl, rfl, ?_⟩
        cases h
        rfl

lemma wtd_ok_some_inv {provider : String → Option Series} {w : List (String × ℚ)}
    {sd ed bmk : String} {cap : ℚ} {r : BacktestResult}
    (h : backtest_weighted_portfolio provider w sd ed bmk cap = .ok (some r)) :
    ∃ pw pm im,
      normalizeWeights w = .ok pw ∧
      calculate_performance_metrics
          (wtdReturnsOf (hdOf provider (pw.map Prod.fst) bmk)
            (alignedDates (hdOf provider (pw.map Prod.fst) bmk)) pw)
          ((benchDataOf provider (pw.map Prod.fst) bmk).map calculate_returns) = .ok pm ∧
      individualMetricsOf (alignedReturnColumns (hdOf provider (pw.map Prod.fst) bmk)
          (alignedDates (hdOf provider (pw.map Prod.fst) bmk))) = .ok im ∧
      r = { portfolio_metrics := pm
            individual_metrics := im
            portfolio_weights := some pw
            portfolio_returns := wtdReturnsOf (hdOf provider (pw.map Prod.fst) bmk)
              (alignedDates (hdOf provider (pw.map Prod.fst) bmk)) pw
            portfolio_value := portfolioValueSeries cap
              (wtdReturnsOf (hdOf provider (pw.map Prod.fst) bmk)
                (alignedDates (hdOf provider (pw.map Prod.fst) bmk)) pw)
            final_value := ((portfolioValueSeries cap
              (wtdReturnsOf (hdOf provider (pw.map Prod.fst) bmk)
                (alignedDates (hdOf provider (pw.map Prod.fst) bmk)) pw)).map Prod.snd).getLastD 0
            total_return_pct := (((portfolioValueSeries cap
              (wtdReturnsOf (hdOf provider (pw.map Prod.fst) bmk)
                (alignedDates (hdOf provider (pw.map Prod.fst) bmk)) pw)).map
                  Prod.snd).getLastD 0 / cap - 1) * 100
            correlation_matrix := correlationMatrix
              (alignedReturnColumns (hdOf provider (pw.map Prod.fst) bmk)
                (alignedDates (hdOf provider (pw.map Prod.fst) bmk)))
            tickers := (hdOf provider (pw.map Prod.fst) bmk).map Prod.fst
            start_date := sd
            end_date := ed
            trading_days := (alignedDates (hdOf provider (pw.map Prod.fst) bmk)).length } := by
  unfold backtest_weighted_portfolio at h
  cases hnw : normalizeWeights w with
  | error e => rw [hnw] at h; simp [Except.bind] at h
  | ok pw =>
    rw [hnw] at h
    simp only [Except.bind] at h
    split at h
    · exact absurd h (by simp)
    · cases hpm : calculate_performance_metrics
          (wtdReturnsOf (hdOf provider (pw.map Prod.fst) bmk)
            (alignedDates (hdOf provider (pw.map Prod.fst) bmk)) pw)
          ((benchDataOf provider (pw.map Prod.fst) bmk).map calculate_returns) with
      | error e => rw [hpm] at h; simp [Except.bind] at h
      | ok pm =>
        rw [hpm] at h
        simp only [Except.bind] at h
        cases him : individualMetricsOf (alignedReturnColumns (hdOf provider (pw.map Prod.fst) bmk)
            (alignedDates (hdOf provider (pw.map Prod.fst) bmk))) with
        | error e => rw [him] at h; simp [Except.bind] at h
        | ok im =>
          rw [him] at h
          simp only [Except.bind] at h
          refine ⟨pw, pm, im, rfl, hpm, him, ?_⟩
          cases h
          rfl

lemma eqw_ok_some_nonempty {provider : String → Option Series} {tickers : List String}
    {sd ed bmk : String} {cap : ℚ} {r : BacktestResult}
    (h : backtest_equal_weight_portfolio provider tickers sd ed bmk cap = .ok (some r)) :
    (alignedDates (hdOf provider tickers bmk)).isEmpty = false := by
  by_cases hc : (alignedDates (hdOf provider tickers bmk)).isEmpty = true
  · exfalso
    unfold backtest_equal_weight_portfolio at h
    rw [if_pos hc] at h
    simp at h
  · simpa using hc

lemma pctChangeAux_length (prev : ℚ) (l : Series) :
    (pctChangeAux prev l).length = l.length := by
  induction l generalizing prev with
  | nil => rfl
  | cons p rest ih => simp [pctChangeAux, ih]

lemma pctChange_length (l : Series) : (pctChange l).length = l.length - 1 := by
  cases l with
  | nil => rfl
  | cons p rest => simp [pctChange, pctChangeAux_length]

lemma getD_zipWith (f : ℚ → ℚ → ℚ) :
    ∀ (as bs : List ℚ) (i : Nat), i < as.length → i < bs.length →
    (List.zipWith f as bs).getD i 0 = f (as.getD i 0) (bs.getD i 0) := by
  intro as
  induction as with
  | nil => intro bs i h1 h2; simp at h1
  | cons a as ih =>
    intro bs i h1 h2
    cases bs with
    | nil => simp at h2
    | cons b bs =>
      cases i with
      | zero => simp [List.zipWith]
      | succ n =>
        simp only [List.zipWith_cons_cons, List.getD_cons_succ]
        exact ih bs n (by simpa using h1) (by simpa using h2)

lemma getD_map_div (k : ℚ) :
    ∀ (l : List ℚ) (i : Nat), i < l.length →
    ((l.map (fun s => s / k)).getD i 0) = l.getD i 0 / k := by
  intro l
  induction l with
  | nil => intro i h; simp at h
  | cons x xs ih =>
    intro i h
    cases i with
    | zero => simp
    | succ n => simpa using ih n (by simpa using h)

lemma sumColumns_length (L : Nat) :
    ∀ (cols : List (List ℚ)), (∀ c ∈ cols, c.length = L) → cols ≠ [] →
    (sumColumns cols).length = L := by
  intro cols
  induction cols with
  | nil => intro _ hne; exact absurd rfl hne
  | cons c cs ih =>
    intro hL _
    cases cs with
    | nil => simpa [sumColumns] using hL c (by simp)
    | cons c2 cs2 =>
      rw [show sumColumns (c :: c2 :: cs2) =
          List.zipWith (fun a b => a + b) c (sumColumns (c2 :: cs2)) from rfl]
      rw [List.length_zipWith, hL c (by simp),
        ih (fun d hd => hL d (by simp [hd])) (by simp)]
      simp

lemma sumColumns_getD (L : Nat) :
    ∀ (cols : List (List ℚ)), (∀ c ∈ cols, c.length = L) → cols ≠ [] →
    ∀ i, i < L →
    (sumColumns cols).getD i 0 = (cols.map (fun c => c.getD i 0)).sum := by
  intro cols
  induction cols with
  | nil => intro _ hne; exact absurd rfl hne
  | cons c cs ih =>
    intro hL _ i hi
    cases cs with
    | nil => simp [sumColumns]
    | cons c2 cs2 =>
      rw [show sumColumns (c :: c2 :: cs2) =
          List.zipWith (fun a b => a + b) c (sumColumns (c2 :: cs2)) from rfl]
      rw [getD_zipWith _ _ _ i (by rw [hL c (by simp)]; exact hi)
        (by rw [sumColumns_length L (c2 :: cs2) (fun d hd => hL d (by simp [hd])) (by simp)]
            exact hi)]
      rw [ih (fun d hd => hL d (by simp [hd])) (by simp) i hi]
      simp

lemma mapExcept_ok_forall {α β : Type} {f : α → Except String β} :
    ∀ {l : List α} {l2 : List β}, mapExcept f l = .ok l2 →
    List.Forall₂ (fun a b => f a = .ok b) l l2 := by
  intro l
  induction l with
  | nil =>
    intro l2 h
    simp only [mapExcept] at h
    cases h
    exact List.Forall₂.nil
  | cons a as ih =>
    intro l2 h
    simp only [mapExcept] at h
    cases hfa : f a with
    | error e => rw [hfa] at h; simp [Except.bind] at h
    | ok b =>
      rw [hfa] at h
      simp only [Except.bind] at h
      cases hm : mapExcept f as with
      | error e => rw [hm] at h; simp [Except.map] at h
      | ok bs =>
        rw [hm] at h
        simp only [Except.map] at h
        cases h
        exact List.Forall₂.cons hfa (ih hm)

lemma individualMetricsOf_ok_forall {cols : List (String × Series)}
    {im : List (String × List (String × Option ℝ))}
    (h : individualMetricsOf cols = .ok im) :
    List.Forall₂ (fun c q => calculate_performance_metrics c.2 none = .ok q.2 ∧ q.1 = c.1)
      cols im := by
  unfold individualMetricsOf at h
  refine (mapExcept_ok_forall h).imp ?_
  intro c q hcq
  cases hcm : calculate_performance_metrics c.2 none with
  | error e => rw [hcm] at hcq; simp [Except.map] at hcq
  | ok m =>
    rw [hcm] at hcq
    simp only [Except.map] at hcq
    cases hcq
    exact ⟨rfl, rfl⟩

lemma portfolioValueSeries_getD (cap : ℚ) (rets : Series) :
    ∀ i, i < rets.length →
    ((portfolioValueSeries cap rets).map Prod.snd).getD i 0 =
      cap * (((rets.map Prod.snd).take (i + 1)).map (fun r => 1 + r)).prod := by
  induction rets generalizing cap with
  | nil =>
    intro i h
    simp at h
  | cons p rest ih =>
    intro i h
    cases i with
    | zero =>
      simp [portfolioValueSeries]
    | succ n =>
      have hn : n < rest.length := by simpa using h
      simp only [portfolioValueSeries, List.map_cons, List.getD_cons_succ,
        List.take_succ_cons, List.prod_cons]
      rw [ih (cap * (1 + p.2)) n hn]
      ring

lemma alignedDates_nil : alignedDates ([] : List (String × Series)) = [] := rfl

lemma dedupKeysAux_subset :
    ∀ (l : List (String × Series)) (seen : List String) (x : String × Series),
    x ∈ dedupKeysAux seen l → x ∈ l := by
  intro l
  induction l with
  | nil => intro seen x h; simp [dedupKeysAux] at h
  | cons p rest ih =>
    intro seen x h
    simp only [dedupKeysAux] at h
    split at h
    · exact List.mem_cons_of_mem _ (ih seen x h)
    · rcases List.mem_cons.mp h with h1 | h2
      · exact h1 ▸ List.mem_cons_self _ _
      · exact List.mem_cons_of_mem _ (ih _ x h2)

lemma fetchOne_some {provider : String → Option Series} {t : String} {x : String × Series}
    (h : fetchOne provider t = some x) :
    x.1 = t ∧ x.2 ≠ [] ∧ provider t = some x.2 := by
  unfold fetchOne at h
  cases hp : provider t with
  | none => rw [hp] at h; simp at h
  | some df =>
    rw [hp] at h
    change (if df.isEmpty = true then none else some (t, df)) = some x at h
    by_cases hdf : df.isEmpty = true
    · rw [if_pos hdf] at h; simp at h
    · rw [if_neg hdf] at h
      cases h
      refine ⟨rfl, ?_, rfl⟩
      intro hnil
      have hdfnil : df = [] := hnil
      rw [hdfnil] at hdf
      exact hdf rfl

lemma mem_fetch {provider : String → Option Series} {ts : List String}
    {x : String × Series} (h : x ∈ fetch_historical_data provider ts) :
    ∃ t ∈ ts, fetchOne provider t = some x := by
  unfold fetch_historical_data dedupKeys at h
  exact List.mem_filterMap.mp (dedupKeysAux_subset _ [] x h)

lemma mem_hdOf_props {provider : String → Option Series} {ts : List String}
    {bmk : String} {p : String × Series} (h : p ∈ hdOf provider ts bmk) :
    p.1 ≠ bmk ∧ p.2 ≠ [] := by
  unfold hdOf at h
  have h2 := List.mem_filter.mp h
  obtain ⟨t, _, hf⟩ := mem_fetch h2.1
  obtain ⟨_, hne, _⟩ := fetchOne_some hf
  exact ⟨by simpa using h2.2, hne⟩

lemma pickFold_isSome :
    ∀ (l : List (Nat × ℚ)) (acc : Option (Nat × ℚ)),
    acc.isSome = true ∨ l ≠ [] →
    ((l.foldl (fun acc p =>
      match acc with
      | none => some p
      | some q => if q.1 ≤ p.1 then some p else some q) acc).isSome = true) := by
  intro l
  induction l with
  | nil =>
    intro acc h
    rcases h with h | h
    · simpa using h
    · exact absurd rfl h
  | cons p rest ih =>
    intro acc _
    rw [List.foldl_cons]
    apply ih
    left
    cases acc with
    | none => rfl
    | some q =>
      by_cases hq : q.1 ≤ p.1 <;> simp [hq]

lemma pickFold_mem :
    ∀ (l : List (Nat × ℚ)) (acc : Option (Nat × ℚ)) (x : Nat × ℚ),
    (l.foldl (fun acc p =>
      match acc with
      | none => some p
      | some q => if q.1 ≤ p.1 then some p else some q) acc) = some x →
    x ∈ l ∨ acc = some x := by
  intro l
  induction l with
  | nil => intro acc x h; exact Or.inr h
  | cons p rest ih =>
    intro acc x h
    rw [List.foldl_cons] at h
    rcases ih _ x h with h1 | h2
    · exact Or.inl (List.mem_cons_of_mem _ h1)
    · cases acc with
      | none =>
        left
        simp only [] at h2
        cases h2
        exact List.mem_cons_self _ _
      | some q =>
        simp only [] at h2
        by_cases hq : q.1 ≤ p.1
        · rw [if_pos hq] at h2
          cases h2
          exact Or.inl (List.mem_cons_self _ _)
        · rw [if_neg hq] at h2
          exact Or.inr h2

lemma lastAt_isSome_of_mem_le {ps : Series} {d : Nat} (e : Nat × ℚ)
    (he : e ∈ ps) (hle : e.1 ≤ d) : (lastAt ps d).isSome = true := by
  unfold lastAt
  apply pickFold_isSome
  right
  intro hnil
  have hmem : e ∈ ps.filter (fun p => decide (p.1 ≤ d)) :=
    List.mem_filter.mpr ⟨he, by simpa using hle⟩
  rw [hnil] at hmem
  simp at hmem

lemma lastAt_isSome_exists {ps : Series} {d : Nat}
    (h : (lastAt ps d).isSome = true) : ∃ e ∈ ps, e.1 ≤ d := by
  obtain ⟨x, hx⟩ := Option.isSome_iff_exists.mp h
  unfold lastAt at hx
  rcases pickFold_mem _ none x hx with h1 | h2
  · have h3 := List.mem_filter.mp h1
    exact ⟨x, h3.1, by simpa using h3.2⟩
  · simp at h2

lemma mem_dates_concat :
    ∀ (hd : List (String × Series)) (d : Nat),
    d ∈ hd.foldr (fun p acc => p.2.map Prod.fst ++ acc) [] ↔
      ∃ p ∈ hd, d ∈ p.2.map Prod.fst := by
  intro hd d
  induction hd with
  | nil => simp
  | cons q rest ih => simp [List.mem_append, ih]

lemma mem_insertSorted (d a : Nat) :
    ∀ (l : List Nat), (a ∈ insertSorted d l ↔ a = d ∨ a ∈ l) := by
  intro l
  induction l with
  | nil => simp [insertSorted]
  | cons e es ih =>
    simp only [insertSorted]
    split
    · simp
    · rw [List.mem_cons, ih, List.mem_cons]
      tauto

lemma mem_sortDates (a : Nat) :
    ∀ (l : List Nat), (a ∈ sortDates l ↔ a ∈ l) := by
  intro l
  induction l with
  | nil => simp [sortDates]
  | cons e es ih =>
    rw [show sortDates (e :: es) = insertSorted e (sortDates es) from rfl,
      mem_insertSorted, List.mem_cons, ih]

lemma mem_unionDates (hd : List (String × Series)) (d : Nat) :
    d ∈ unionDates hd ↔ ∃ p ∈ hd, d ∈ p.2.map Prod.fst := by
  unfold unionDates
  rw [mem_sortDates, List.mem_dedup, mem_dates_concat]

lemma le_foldr_max : ∀ (l : List Nat) (d : Nat), d ∈ l → d ≤ l.foldr max 0 := by
  intro l
  induction l with
  | nil => intro d h; simp at h
  | cons x xs ih =>
    intro d h
    rw [List.foldr_cons]
    rcases List.mem_cons.mp h with h1 | h2
    · exact h1 ▸ le_max_left _ _
    · exact le_trans (ih d h2) (le_max_right _ _)

lemma foldr_max_mem : ∀ (l : List Nat), l ≠ [] → l.foldr max 0 ∈ l := by
  intro l
  induction l with
  | nil => intro h; exact absurd rfl h
  | cons x xs ih =>
    intro _
    rw [List.foldr_cons]
    by_cases hxs : xs = []
    · subst hxs
      simp
    · rcases max_choice x (xs.foldr max 0) with h | h
      · rw [h]
        exact List.mem_cons_self _ _
      · rw [h]
        exact List.mem_cons_of_mem _ (ih hxs)

lemma alignedDates_ne_nil {hd : List (String × Series)} (hne : hd ≠ [])
    (hdata : ∀ p ∈ hd, p.2 ≠ []) : alignedDates hd ≠ [] := by
  have hLne : hd.foldr (fun p acc => p.2.map Prod.fst ++ acc) [] ≠ [] := by
    cases hhd : hd with
    | nil => exact absurd hhd hne
    | cons q rest =>
      have hq : q.2 ≠ [] := hdata q (hhd ▸ List.mem_cons_self _ _)
      simp only [List.foldr_cons, ne_eq, List.append_eq_nil]
      intro hcon
      exact hq (by simpa using hcon.1)
  have hdm := foldr_max_mem _ hLne
  have hdmax : (hd.foldr (fun p acc => p.2.map Prod.fst ++ acc) []).foldr max 0 ∈
      alignedDates hd := by
    apply List.mem_filter.mpr
    constructor
    · exact (mem_unionDates hd _).mpr ((mem_dates_concat hd _).mp hdm)
    · apply List.all_eq_true.mpr
      intro p hp
      obtain ⟨e, he⟩ := List.exists_mem_of_ne_nil _ (hdata p hp)
      apply lastAt_isSome_of_mem_le e he
      apply le_foldr_max
      apply (mem_dates_concat hd _).mpr
      exact ⟨p, hp, List.mem_map_of_mem Prod.fst he⟩
  intro hcon
  rw [hcon] at hdmax
  simp at hdmax

lemma alignedDates_hdOf_eq_nil_iff (provider : String → Option Series)
    (ts : List String) (bmk : String) :
    alignedDates (hdOf provider ts bmk) = [] ↔ hdOf provider ts bmk = [] := by
  constructor
  · intro h
    by_contra hne
    exact alignedDates_ne_nil hne (fun p hp => (mem_hdOf_props hp).2) h
  · intro h
    rw [h, alignedDates_nil]

lemma eqw_ne_ok_none {provider : String → Option Series} {tickers : List String}
    {sd ed bmk : String} {cap : ℚ}
    (h : (alignedDates (hdOf provider tickers bmk)).isEmpty = false) :
    backtest_equal_weight_portfolio provider tickers sd ed bmk cap ≠ .ok none := by
  unfold backtest_equal_weight_portfolio
  rw [if_neg (by simp [h])]
  intro hcon
  cases hpm : calculate_performance_metrics
      (eqwReturnsOf (hdOf provider tickers bmk) (alignedDates (hdOf provider tickers bmk)))
      ((benchDataOf provider tickers bmk).map calculate_returns) with
  | error e => rw [hpm] at hcon; simp [Except.bind] at hcon
  | ok pm =>
    rw [hpm] at hcon
    simp only [Except.bind] at hcon
    cases him : individualMetricsOf (alignedReturnColumns (hdOf provider tickers bmk)
        (alignedDates (hdOf provider tickers bmk))) with
    | error e => rw [him] at hcon; simp [Except.bind] at hcon
    | ok im =>
      rw [him] at hcon
      simp [Except.bind] at hcon

lemma dedupKeysAux_filter_ne (b : String) :
    ∀ (l : List (String × Series)) (seen₁ seen₂ : List String),
    (∀ k, k ≠ b → seen₁.contains k = seen₂.contains k) →
    (dedupKeysAux seen₁ l).filter (fun q => q.1 != b) =
      dedupKeysAux seen₂ (l.filter (fun q => q.1 != b)) := by
  intro l
  induction l with
  | nil => intro s1 s2 hag; rfl
  | cons p rest ih =>
    intro s1 s2 hag
    by_cases hpb : p.1 = b
    · have hfb : (p.1 != b) = false := by simp [hpb]
      have hrhs : (p :: rest).filter (fun q => q.1 != b) =
          rest.filter (fun q => q.1 != b) := by
        rw [List.filter_cons, hfb]
        simp
      rw [hrhs]
      simp only [dedupKeysAux]
      by_cases hc : s1.contains p.1 = true
      · rw [if_pos hc]
        exact ih s1 s2 hag
      · rw [if_neg hc]
        have hlhs : (p :: dedupKeysAux (p.1 :: s1) rest).filter (fun q => q.1 != b) =
            (dedupKeysAux (p.1 :: s1) rest).filter (fun q => q.1 != b) := by
          rw [List.filter_cons, hfb]
          simp
        rw [hlhs]
        apply ih
        intro k hk
        have hkp : (k == p.1) = false := by
          apply beq_eq_false_iff_ne.mpr
          rw [hpb]
          exact hk
        rw [List.contains_cons, hkp, Bool.false_or]
        exact hag k hk
    · have htb : (p.1 != b) = true := by simp [hpb]
      have hcc : s1.contains p.1 = s2.contains p.1 := hag p.1 hpb
      have hrhs : (p :: rest).filter (fun q => q.1 != b) =
          p :: rest.filter (fun q => q.1 != b) := by
        rw [List.filter_cons, htb]
        simp
      rw [hrhs]
      simp only [dedupKeysAux]
      by_cases hc : s2.contains p.1 = true
      · rw [if_pos (hcc.trans hc), if_pos hc]
        exact ih s1 s2 hag
      · rw [if_neg (by rw [hcc]; exact hc), if_neg hc]
        have hlhs : (p :: dedupKeysAux (p.1 :: s1) rest).filter (fun q => q.1 != b) =
            p :: (dedupKeysAux (p.1 :: s1) rest).filter (fun q => q.1 != b) := by
          rw [List.filter_cons, htb]
          simp
        rw [hlhs]
        congr 1
        apply ih
        intro k hk
        rw [List.contains_cons, List.contains_cons, hag k hk]

lemma fetch_filter_eq (provider : String → Option Series) (b : String) :
    ∀ (ts : List String),
    (ts.filterMap (fetchOne provider)).filter (fun q => q.1 != b) =
      ts.filterMap (fun t => if t = b then none else fetchOne provider t) := by
  intro ts
  induction ts with
  | nil => rfl
  | cons t ts ih =>
    simp only [List.filterMap_cons]
    cases hf : fetchOne provider t with
    | none =>
      by_cases htb : t = b
      · simp only [if_pos htb]
        exact ih
      · simp only [if_neg htb, hf]
        exact ih
    | some x =>
      have hx : x.1 = t := (fetchOne_some hf).1
      by_cases htb : t = b
      · simp only [if_pos htb, List.filter_cons,
          show (x.1 != b) = false by simp [hx, htb]]
        simp only [Bool.false_eq_true, if_false]
        exact ih
      · simp only [if_neg htb, hf, List.filter_cons,
          show (x.1 != b) = true by simp [hx, htb]]
        simp only [if_true]
        rw [ih]

lemma hdOf_eq (provider : String → Option Series) (ts : List String) (bmk : String) :
    hdOf provider ts bmk =
      dedupKeysAux [] ((ts ++ [bmk]).filterMap
        (fun t => if t = bmk then none else fetchOne provider t)) := by
  unfold hdOf fetch_historical_data dedupKeys
  rw [dedupKeysAux_filter_ne bmk _ [] [] (fun k _ => rfl), fetch_filter_eq]

lemma hdOf_invariant {p1 p2 : String → Option Series} {ts : List String} {bmk : String}
    (hag : ∀ t, t ≠ bmk → p1 t = p2 t) : hdOf p1 ts bmk = hdOf p2 ts bmk := by
  rw [hdOf_eq, hdOf_eq]
  have hfun : (fun t => if t = bmk then none else fetchOne p1 t) =
      (fun t => if t = bmk then none else fetchOne p2 t) := by
    funext t
    by_cases htb : t = bmk
    · simp [htb]
    · simp only [if_neg htb]
      unfold fetchOne
      rw [hag t htb]
  rw [hfun]

lemma dedupKeysAux_nil_eq_nil_iff (l : List (String × Series)) :
    dedupKeysAux [] l = [] ↔ l = [] := by
  cases l with
  | nil => simp [dedupKeysAux]
  | cons p rest => simp [dedupKeysAux]

lemma hdOf_eq_nil_iff (provider : String → Option Series) (ts : List String)
    (bmk : String) :
    hdOf provider ts bmk = [] ↔
      ∀ t ∈ ts, t = bmk ∨ provider t = none ∨ provider t = some [] := by
  rw [hdOf_eq, dedupKeysAux_nil_eq_nil_iff, List.filterMap_eq_nil_iff]
  constructor
  · intro hall t ht
    have h1 := hall t (by simp [ht])
    by_cases htb : t = bmk
    · exact Or.inl htb
    · rw [if_neg htb] at h1
      unfold fetchOne at h1
      cases hp : provider t with
      | none => exact Or.inr (Or.inl rfl)
      | some df =>
        rw [hp] at h1
        change (if df.isEmpty = true then none else some (t, df)) = none at h1
        by_cases hdf : df.isEmpty = true
        · exact Or.inr (Or.inr (by rw [List.isEmpty_iff.mp hdf]))
        · rw [if_neg hdf] at h1
          simp at h1
  · intro hcond x hx
    rcases List.mem_append.mp hx with h1 | h2
    · by_cases htb : x = bmk
      · simp [htb]
      · rw [if_neg htb]
        rcases hcond x h1 with hc | hc | hc
        · exact absurd hc htb
        · unfold fetchOne; rw [hc]
        · unfold fetchOne; rw [hc]; rfl
    · have : x = bmk := by simpa using h2
      simp [this]

lemma eqw_ok_none_iff {provider : String → Option Series} {tickers : List String}
    {sd ed bmk : String} {cap : ℚ} :
    backtest_equal_weight_portfolio provider tickers sd ed bmk cap = .ok none ↔
      (alignedDates (hdOf provider tickers bmk)).isEmpty = true := by
  constructor
  · intro h
    by_cases hc : (alignedDates (hdOf provider tickers bmk)).isEmpty = true
    · exact hc
    · exact absurd h (eqw_ne_ok_none (by simpa using hc))
  · intro hc
    unfold backtest_equal_weight_portfolio
    rw [if_pos hc]

lemma lastAt_of_all_le {ps : Series} {d : Nat} (h : ∀ e ∈ ps, e.1 ≤ d) :
    lastAt ps d = ps.foldl (fun acc p =>
      match acc with
      | none => some p
      | some q => if q.1 ≤ p.1 then some p else some q) none := by
  unfold lastAt
  congr 1
  apply List.filter_eq_self.mpr
  intro a ha
  simpa using h a ha

lemma pctChangeAux_const (c : ℚ) (hc : c ≠ 0) :
    ∀ (l : Series), (∀ e ∈ l, e.2 = c) → ∀ e ∈ pctChangeAux c l, e.2 = 0 := by
  intro l
  induction l with
  | nil => intro _ e he; simp [pctChangeAux] at he
  | cons p rest ih =>
    intro hall e he
    have hp : p.2 = c := hall p (List.mem_cons_self _ _)
    simp only [pctChangeAux] at he
    rcases List.mem_cons.mp he with h1 | h2
    · rw [h1]
      simp [hp, div_self hc]
    · rw [hp] at h2
      exact ih (fun q hq => hall q (List.mem_cons_of_mem _ hq)) e h2

lemma pctChange_const (c : ℚ) (hc : c ≠ 0) (l : Series)
    (hall : ∀ e ∈ l, e.2 = c) : ∀ e ∈ pctChange l, e.2 = 0 := by
  cases l with
  | nil => intro e he; simp [pctChange] at he
  | cons p rest =>
    intro e he
    simp only [pctChange] at he
    rw [hall p (List.mem_cons_self _ _)] at he
    exact pctChangeAux_const c hc rest
      (fun q hq => hall q (List.mem_cons_of_mem _ hq)) e he

lemma hdOf_two (psA psB : Series) (hA : psA ≠ []) (hB : psB ≠ []) :
    hdOf (twoTickerProvider psA psB) ["A", "B"] "SPY" = [("A", psA), ("B", psB)] := by
  cases psA with
  | nil => exact absurd rfl hA
  | cons a as =>
    cases psB with
    | nil => exact absurd rfl hB
    | cons b bs => rfl

lemma forall₂_mem_right {α β : Type} {R : α → β → Prop} :
    ∀ {l1 : List α} {l2 : List β}, List.Forall₂ R l1 l2 →
    ∀ b ∈ l2, ∃ a ∈ l1, R a b := by
  intro l1 l2 h
  induction h with
  | nil => intro b hb; simp at hb
  | cons hr _ ih =>
    intro b hb
    rcases List.mem_cons.mp hb with rfl | hb
    · exact ⟨_, List.mem_cons_self _ _, hr⟩
    · obtain ⟨a, ha, hra⟩ := ih b hb
      exact ⟨a, List.mem_cons_of_mem _ ha, hra⟩

lemma mem_alignedReturnColumns_key {hd : List (String × Series)} {dates : List Nat}
    {c : String × Series} (h : c ∈ alignedReturnColumns hd dates) :
    ∃ p ∈ hd, c.1 = p.1 := by
  obtain ⟨p, hp, rfl⟩ := List.mem_map.mp h
  exact ⟨p, hp, rfl⟩

lemma eqwReturnsOf_getD (hd : List (String × Series)) (dates : List Nat)
    (hne : hd ≠ []) (i : Nat)
    (hi : i < (eqwReturnsOf hd dates).length) :
    ((eqwReturnsOf hd dates).map Prod.snd).getD i 0 =
      ((alignedReturnColumns hd dates).map (fun c => (c.2.map Prod.snd).getD i 0)).sum /
        ((alignedReturnColumns hd dates).length : ℚ) := by
  have hLc : ∀ c ∈ (alignedReturnColumns hd dates).map (fun p => p.2.map Prod.snd),
      c.length = dates.length - 1 := by
    intro c hc
    obtain ⟨p, hp, rfl⟩ := List.mem_map.mp hc
    obtain ⟨q, hq, rfl⟩ := List.mem_map.mp hp
    simp [pctChange_length]
  have hcne : (alignedReturnColumns hd dates).map (fun p => p.2.map Prod.snd) ≠ [] := by
    simp only [ne_eq, List.map_eq_nil_iff, alignedReturnColumns]
    exact hne
  have hsumlen := sumColumns_length (dates.length - 1) _ hLc hcne
  have hrmlen : (rowMeanVals ((alignedReturnColumns hd dates).map
      (fun p => p.2.map Prod.snd))).length = dates.length - 1 := by
    simp [rowMeanVals, hsumlen]
  have htail : dates.tail.length = dates.length - 1 := List.length_tail _
  have hiL : i < dates.length - 1 := by
    simp only [eqwReturnsOf, List.length_zip, htail, hrmlen] at hi
    simpa using hi
  simp only [eqwReturnsOf]
  rw [List.map_snd_zip _ _ (by rw [hrmlen, htail])]
  simp only [rowMeanVals]
  rw [getD_map_div _ _ i (by rw [hsumlen]; exact hiL)]
  rw [sumColumns_getD (dates.length - 1) _ hLc hcne i hiL]
  rw [List.map_map, List.length_map]
  rfl

end Alpha

namespace Alpha

/-- C9: for the empty return series the metric computation does not return a
record with `win_rate = 0`: the exponent `252 / len(returns)` of line 89
raises `ZeroDivisionError` first, even though the `win_rate` formula of
line 107 carries its own (unreachable) `len(returns) > 0` guard.  This theorem
evaluates the embedded code at the failing input. -/
theorem spec_C9 : calculate_performance_metrics ([] : Series) none =
    .error "ZeroDivisionError" := rfl

/-- C8 counterexample: for the single-element return series `[(1, 1/100)]` the
`volatility` entry of the returned record is `NaN` (pandas sample std of one
observation), not the real number `0` the claim requires. -/
theorem spec_C8_cex :
    lookupMetric "volatility" (calculate_performance_metrics [((1 : Nat), (1 : ℚ)/100)] none) =
      some none ∧
    (some (none : Option ℝ)) ≠ some (some (0 : ℝ)) :=
  ⟨rfl, by simp⟩

/-- C8 amended: for a return series of length 1 the metric computation yields
`volatility = NaN` (not 0); the `sharpe_ratio` guard treats that `NaN` as
non-positive and yields 0; and for length 0 the computation raises
`ZeroDivisionError` before producing any record. -/
theorem spec_C8 : ∀ (d : Nat) (q : ℚ),
    lookupMetric "volatility" (calculate_performance_metrics [(d, q)] none) = some none ∧
    lookupMetric "sharpe_ratio" (calculate_performance_metrics [(d, q)] none) = some (some 0) ∧
    calculate_performance_metrics ([] : Series) none = .error "ZeroDivisionError" := by
  intro d q
  exact ⟨rfl, rfl, rfl⟩

/-- C7 counterexample: the record returned by the metric computation has
exactly the nine keys of lines 109-119; `downside_volatility` is not among
them, refuting the claim that every returned MetricSet contains a
`downside_volatility` entry. -/
theorem spec_C7_cex :
    metricKeys (calculate_performance_metrics [((1 : Nat), (1 : ℚ)/100)] none) =
      some ["total_return", "annualized_return", "volatility", "sharpe_ratio",
            "sortino_ratio", "max_drawdown", "win_rate", "best_day", "worst_day"] ∧
    "downside_volatility" ∉
      ["total_return", "annualized_return", "volatility", "sharpe_ratio",
       "sortino_ratio", "max_drawdown", "win_rate", "best_day", "worst_day"] :=
  ⟨rfl, by decide⟩

/-- C7 amended: every record returned by the metric computation (no benchmark)
has exactly the nine §4.3 keys, `downside_volatility` not among them; the
downside volatility is computed internally — the literal 0 when no negative
return exists — and is consumed only by the `sortino_ratio` entry. -/
theorem spec_C7 : ∀ (rs : Series), rs ≠ [] →
    metricKeys (calculate_performance_metrics rs none) =
      some ["total_return", "annualized_return", "volatility", "sharpe_ratio",
            "sortino_ratio", "max_drawdown", "win_rate", "best_day", "worst_day"] ∧
    "downside_volatility" ∉
      ["total_return", "annualized_return", "volatility", "sharpe_ratio",
       "sortino_ratio", "max_drawdown", "win_rate", "best_day", "worst_day"] ∧
    ((rs.map Prod.snd).filter (fun r => decide (r < 0)) = [] →
      downsideVolatilityOf (rs.map Prod.snd) = some 0) ∧
    lookupMetric "sortino_ratio" (calculate_performance_metrics rs none) =
      some (some (ratioGuard (annualizedReturnOf (rs.map Prod.snd))
        (downsideVolatilityOf (rs.map Prod.snd)))) := by
  intro rs hrs
  have hlen : ¬ ((rs.map Prod.snd).length = 0) := by
    simpa using hrs
  refine ⟨?_, by decide, ?_, ?_⟩
  · unfold calculate_performance_metrics
    rw [if_neg hlen]
    rfl
  · intro hfil
    unfold downsideVolatilityOf
    rw [hfil]
    simp
  · unfold calculate_performance_metrics
    rw [if_neg hlen]
    rfl

/-- C1: day-by-day compounding of the portfolio value.  For every successful
backtest invocation, equal-weight or weighted, the stored trajectory is
`portfolioValueSeries initial_capital portfolio_returns`; that series satisfies
`value[t] = initial_capital * prod of (1 + return[i]) over i ≤ t` at every
index; and on the 3-day return series `[0.01, -0.02, 0.03]` with capital
100000 it is exactly `[101000, 98980, 101949.4]`. -/
theorem spec_C1 :
    (∀ (provider : String → Option Series) (tickers : List String) (sd ed bmk : String)
        (cap : ℚ) (r : BacktestResult),
      backtest_equal_weight_portfolio provider tickers sd ed bmk cap = .ok (some r) →
      r.portfolio_value = portfolioValueSeries cap r.portfolio_returns) ∧
    (∀ (provider : String → Option Series) (w : List (String × ℚ)) (sd ed bmk : String)
        (cap : ℚ) (r : BacktestResult),
      backtest_weighted_portfolio provider w sd ed bmk cap = .ok (some r) →
      r.portfolio_value = portfolioValueSeries cap r.portfolio_returns) ∧
    (∀ (cap : ℚ) (rets : Series) (i : Nat), i < rets.length →
      ((portfolioValueSeries cap rets).map Prod.snd).getD i 0 =
        cap * (((rets.map Prod.snd).take (i + 1)).map (fun r => 1 + r)).prod) ∧
    (portfolioValueSeries 100000 [(1, (1 : ℚ)/100), (2, -1/50), (3, 3/100)]).map Prod.snd =
      [101000, 98980, 1019494/10] := by
  refine ⟨?_, ?_, ?_, ?_⟩
  · intro provider tickers sd ed bmk cap r h
    obtain ⟨pm, im, _, _, hr⟩ := eqw_ok_some_inv h
    rw [hr]
  · intro provider w sd ed bmk cap r h
    obtain ⟨pw, pm, im, _, _, _, hr⟩ := wtd_ok_some_inv h
    rw [hr]
  · intro cap rets i h
    exact portfolioValueSeries_getD cap rets i h
  · norm_num [portfolioValueSeries]

/-- C1 witness: instantiations at concrete inputs — an equal-weight backtest of
one ticker whose closes realize the returns `[0.01, -0.02, 0.03]`, a weighted
backtest of the same ticker with weight 1, and the prefix-product form at
index 2. -/
theorem spec_C1_witness :
    (unwrapOk (backtest_equal_weight_portfolio
        (fun t => if t = "A" then some [(1, (100 : ℚ)), (2, 101), (3, 4949/50), (4, 509747/5000)] else none)
        ["A"] "s" "e" "SPY" 100000)).portfolio_value =
      portfolioValueSeries 100000
        (unwrapOk (backtest_equal_weight_portfolio
          (fun t => if t = "A" then some [(1, (100 : ℚ)), (2, 101), (3, 4949/50), (4, 509747/5000)] else none)
          ["A"] "s" "e" "SPY" 100000)).portfolio_returns ∧
    (unwrapOk (backtest_weighted_portfolio
        (fun t => if t = "A" then some [(1, (100 : ℚ)), (2, 101), (3, 4949/50), (4, 509747/5000)] else none)
        [("A", 1)] "s" "e" "SPY" 100000)).portfolio_value =
      portfolioValueSeries 100000
        (unwrapOk (backtest_weighted_portfolio
          (fun t => if t = "A" then some [(1, (100 : ℚ)), (2, 101), (3, 4949/50), (4, 509747/5000)] else none)
          [("A", 1)] "s" "e" "SPY" 100000)).portfolio_returns ∧
    ((portfolioValueSeries (100000 : ℚ) [(1, (1 : ℚ)/100), (2, -1/50), (3, 3/100)]).map Prod.snd).getD 2 0 =
      100000 * ((([(1, (1 : ℚ)/100), (2, -1/50), (3, 3/100)].map Prod.snd).take 3).map
        (fun r => 1 + r)).prod := by
  have hnw : normalizeWeights [("A", (1 : ℚ))] = .ok [("A", 1)] := by
    norm_num [normalizeWeights]
  have hw : backtest_weighted_portfolio
      (fun t => if t = "A" then some [(1, (100 : ℚ)), (2, 101), (3, 4949/50), (4, 509747/5000)] else none)
      [("A", 1)] "s" "e" "SPY" 100000 =
    .ok (some (unwrapOk (backtest_weighted_portfolio
      (fun t => if t = "A" then some [(1, (100 : ℚ)), (2, 101), (3, 4949/50), (4, 509747/5000)] else none)
      [("A", 1)] "s" "e" "SPY" 100000))) := by
    unfold backtest_weighted_portfolio
    rw [hnw]
    rfl
  refine ⟨?_, ?_, ?_⟩
  · exact spec_C1.1
      (fun t => if t = "A" then some [(1, (100 : ℚ)), (2, 101), (3, 4949/50), (4, 509747/5000)] else none)
      ["A"] "s" "e" "SPY" 100000
      (unwrapOk (backtest_equal_weight_portfolio
        (fun t => if t = "A" then some [(1, (100 : ℚ)), (2, 101), (3, 4949/50), (4, 509747/5000)] else none)
        ["A"] "s" "e" "SPY" 100000)) rfl
  · exact spec_C1.2.1
      (fun t => if t = "A" then some [(1, (100 : ℚ)), (2, 101), (3, 4949/50), (4, 509747/5000)] else none)
      [("A", 1)] "s" "e" "SPY" 100000
      (unwrapOk (backtest_weighted_portfolio
        (fun t => if t = "A" then some [(1, (100 : ℚ)), (2, 101), (3, 4949/50), (4, 509747/5000)] else none)
        [("A", 1)] "s" "e" "SPY" 100000)) hw
  · exact spec_C1.2.2.1 100000 [(1, (1 : ℚ)/100), (2, -1/50), (3, 3/100)] 2 (by decide)

/-- C4: in the equal-weight backtest the portfolio return at every aligned
index is the row sum of the instrument returns divided by the number of
instruments (the unweighted arithmetic mean, pandas `mean(axis=1)` of
line 199), and the per-instrument metrics are exactly the single-series metric
computation applied to each ticker's own aligned return column (lines
210-214). -/
theorem spec_C4 :
    ∀ (provider : String → Option Series) (tickers : List String) (sd ed bmk : String)
      (cap : ℚ) (r : BacktestResult),
    backtest_equal_weight_portfolio provider tickers sd ed bmk cap = .ok (some r) →
    (∀ i, i < r.portfolio_returns.length →
      (r.portfolio_returns.map Prod.snd).getD i 0 =
        ((alignedReturnColumns (hdOf provider tickers bmk)
            (alignedDates (hdOf provider tickers bmk))).map
          (fun c => (c.2.map Prod.snd).getD i 0)).sum /
        ((alignedReturnColumns (hdOf provider tickers bmk)
            (alignedDates (hdOf provider tickers bmk))).length : ℚ)) ∧
    List.Forall₂ (fun c q => calculate_performance_metrics c.2 none = .ok q.2 ∧ q.1 = c.1)
      (alignedReturnColumns (hdOf provider tickers bmk)
        (alignedDates (hdOf provider tickers bmk)))
      r.individual_metrics := by
  intro provider tickers sd ed bmk cap r h
  have hne := eqw_ok_some_nonempty h
  obtain ⟨pm, im, hpm, him, hr⟩ := eqw_ok_some_inv h
  have hHD : hdOf provider tickers bmk ≠ [] := by
    intro hhd
    rw [hhd] at hne
    rw [alignedDates_nil] at hne
    simp at hne
  constructor
  · intro i hi
    rw [hr] at hi ⊢
    dsimp only at hi ⊢
    exact eqwReturnsOf_getD _ _ hHD i hi
  · rw [hr]
    dsimp only
    exact individualMetricsOf_ok_forall him

/-- C4 witness: the mean property at index 0 and the per-instrument metric
identity for a concrete two-ticker equal-weight backtest. -/
theorem spec_C4_witness :
    (((unwrapOk (backtest_equal_weight_portfolio
        (fun t => if t = "A" then some [(1, (100 : ℚ)), (2, 110)]
          else if t = "B" then some [(1, (200 : ℚ)), (2, 210)] else none)
        ["A", "B"] "s" "e" "SPY" 100000)).portfolio_returns.map Prod.snd).getD 0 0 =
      ((alignedReturnColumns (hdOf
          (fun t => if t = "A" then some [(1, (100 : ℚ)), (2, 110)]
            else if t = "B" then some [(1, (200 : ℚ)), (2, 210)] else none)
          ["A", "B"] "SPY")
          (alignedDates (hdOf
            (fun t => if t = "A" then some [(1, (100 : ℚ)), (2, 110)]
              else if t = "B" then some [(1, (200 : ℚ)), (2, 210)] else none)
            ["A", "B"] "SPY"))).map
        (fun c => (c.2.map Prod.snd).getD 0 0)).sum /
      ((alignedReturnColumns (hdOf
          (fun t => if t = "A" then some [(1, (100 : ℚ)), (2, 110)]
            else if t = "B" then some [(1, (200 : ℚ)), (2, 210)] else none)
          ["A", "B"] "SPY")
          (alignedDates (hdOf
            (fun t => if t = "A" then some [(1, (100 : ℚ)), (2, 110)]
              else if t = "B" then some [(1, (200 : ℚ)), (2, 210)] else none)
            ["A", "B"] "SPY"))).length : ℚ)) ∧
    List.Forall₂ (fun c q => calculate_performance_metrics c.2 none = .ok q.2 ∧ q.1 = c.1)
      (alignedReturnColumns (hdOf
          (fun t => if t = "A" then some [(1, (100 : ℚ)), (2, 110)]
            else if t = "B" then some [(1, (200 : ℚ)), (2, 210)] else none)
          ["A", "B"] "SPY")
          (alignedDates (hdOf
            (fun t => if t = "A" then some [(1, (100 : ℚ)), (2, 110)]
              else if t = "B" then some [(1, (200 : ℚ)), (2, 210)] else none)
            ["A", "B"] "SPY")))
      (unwrapOk (backtest_equal_weight_portfolio
        (fun t => if t = "A" then some [(1, (100 : ℚ)), (2, 110)]
          else if t = "B" then some [(1, (200 : ℚ)), (2, 210)] else none)
        ["A", "B"] "s" "e" "SPY" 100000)).individual_metrics := by
  have h := spec_C4
    (fun t => if t = "A" then some [(1, (100 : ℚ)), (2, 110)]
      else if t = "B" then some [(1, (200 : ℚ)), (2, 210)] else none)
    ["A", "B"] "s" "e" "SPY" 100000
    (unwrapOk (backtest_equal_weight_portfolio
      (fun t => if t = "A" then some [(1, (100 : ℚ)), (2, 110)]
        else if t = "B" then some [(1, (200 : ℚ)), (2, 210)] else none)
      ["A", "B"] "s" "e" "SPY" 100000)) rfl
  exact ⟨h.1 0 (by decide), h.2⟩

/-- C2 counterexample: tickers "A" (dates 1-2) and "B" (dates 3-4) have
completely disjoint date ranges, yet the backtest does not return the explicit
empty result: forward-fill carries A's stale price across B's dates, the
aligned matrix is non-empty, and a populated result over both tickers is
returned. -/
theorem spec_C2_cex :
    tickersOf (backtest_equal_weight_portfolio
      (twoTickerProvider [(1, (100 : ℚ)), (2, 110)] [(3, (50 : ℚ)), (4, 55)])
      ["A", "B"] "sd" "ed" "SPY" 100000) = some ["A", "B"] ∧
    backtest_equal_weight_portfolio
      (twoTickerProvider [(1, (100 : ℚ)), (2, 110)] [(3, (50 : ℚ)), (4, 55)])
      ["A", "B"] "sd" "ed" "SPY" 100000 ≠ .ok none := by
  constructor
  · rfl
  · intro h
    have h2 : tickersOf (backtest_equal_weight_portfolio
        (twoTickerProvider [(1, (100 : ℚ)), (2, 110)] [(3, (50 : ℚ)), (4, 55)])
        ["A", "B"] "sd" "ed" "SPY" 100000) = some ["A", "B"] := rfl
    rw [h] at h2
    simp [tickersOf] at h2

/-- C2 amended: for two tickers with disjoint nonempty date ranges (every date
of A before every date of B, positive prices), the backtest does not return
the empty failure result: the result lists both tickers, and ticker A's
aligned return column — the `pctChange` of its forward-filled prices on the
aligned index — is identically zero, i.e. A's last price is fabricated across
B's date range.  The explicit empty result arises only when no ticker has
data (see C6). -/
theorem spec_C2 : ∀ (psA psB : Series) (sd ed : String) (cap : ℚ),
    psA ≠ [] → psB ≠ [] →
    (∀ a ∈ psA, ∀ b ∈ psB, a.1 < b.1) →
    (∀ a ∈ psA, 0 < a.2) →
    (backtest_equal_weight_portfolio (twoTickerProvider psA psB)
      ["A", "B"] sd ed "SPY" cap ≠ .ok none) ∧
    (∀ r, backtest_equal_weight_portfolio (twoTickerProvider psA psB)
        ["A", "B"] sd ed "SPY" cap = .ok (some r) →
      r.tickers = ["A", "B"]) ∧
    (∀ e ∈ pctChange ((alignedDates (hdOf (twoTickerProvider psA psB) ["A", "B"] "SPY")).map
        (fun d => (d, priceAt psA d))), e.2 = 0) := by
  intro psA psB sd ed cap hA hB hdisj hpos
  have hhd := hdOf_two psA psB hA hB
  have hne : hdOf (twoTickerProvider psA psB) ["A", "B"] "SPY" ≠ [] := by
    rw [hhd]
    simp
  have hdata : ∀ p ∈ hdOf (twoTickerProvider psA psB) ["A", "B"] "SPY", p.2 ≠ [] :=
    fun p hp => (mem_hdOf_props hp).2
  have hAd := alignedDates_ne_nil hne hdata
  refine ⟨?_, ?_, ?_⟩
  · apply eqw_ne_ok_none
    simp only [← List.isEmpty_iff] at hAd
    simpa using hAd
  · intro r h
    obtain ⟨pm, im, _, _, hr⟩ := eqw_ok_some_inv h
    rw [hr]
    dsimp only
    rw [hhd]
    rfl
  · obtain ⟨x0, hx0⟩ : ∃ x, psA.foldl (fun acc p =>
        match acc with
        | none => some p
        | some q => if q.1 ≤ p.1 then some p else some q) none = some x :=
      Option.isSome_iff_exists.mp (pickFold_isSome psA none (Or.inr hA))
    have hx0mem : x0 ∈ psA := by
      rcases pickFold_mem psA none x0 hx0 with h | h
      · exact h
      · simp at h
    have hvne : x0.2 ≠ 0 := ne_of_gt (hpos x0 hx0mem)
    have hconst : ∀ q ∈ (alignedDates (hdOf (twoTickerProvider psA psB)
        ["A", "B"] "SPY")).map (fun d => (d, priceAt psA d)), q.2 = x0.2 := by
      intro q hq
      obtain ⟨d, hd, rfl⟩ := List.mem_map.mp hq
      have h2 := List.mem_filter.mp hd
      have hBsome : (lastAt psB d).isSome = true := by
        have h3 := List.all_eq_true.mp h2.2 ("B", psB) (by rw [hhd]; simp)
        exact h3
      obtain ⟨eb, hebmem, heble⟩ := lastAt_isSome_exists hBsome
      have hall : ∀ a ∈ psA, a.1 ≤ d :=
        fun a ha => le_of_lt (lt_of_lt_of_le (hdisj a ha eb hebmem) heble)
      show ((lastAt psA d).map Prod.snd).getD 0 = x0.2
      rw [lastAt_of_all_le hall, hx0]
      rfl
    exact pctChange_const x0.2 hvne _ hconst

/-- C2 witness: the amended disjoint-range statement instantiated at the
concrete histories A = [(1,100), (2,110)] and B = [(3,50), (4,55)]: the
backtest returns a populated result listing both tickers. -/
theorem spec_C2_witness :
    (unwrapOk (backtest_equal_weight_portfolio
      (twoTickerProvider [(1, (100 : ℚ)), (2, 110)] [(3, (50 : ℚ)), (4, 55)])
      ["A", "B"] "sd" "ed" "SPY" 100000)).tickers = ["A", "B"] :=
  (spec_C2 [(1, (100 : ℚ)), (2, 110)] [(3, (50 : ℚ)), (4, 55)] "sd" "ed" 100000
    (by simp) (by simp) (by decide) (by norm_num)).2.1
    (unwrapOk (backtest_equal_weight_portfolio
      (twoTickerProvider [(1, (100 : ℚ)), (2, 110)] [(3, (50 : ℚ)), (4, 55)])
      ["A", "B"] "sd" "ed" "SPY" 100000)) rfl

/-- C6 counterexample: the provider has data only for "A" out of the requested
portfolio ["A", "B"], yet the backtest proceeds and returns a populated
partial result whose ticker list is just ["A"] — not the failed/empty result
the claim requires. -/
theorem spec_C6_cex :
    tickersOf (backtest_equal_weight_portfolio
      (fun t => if t = "A" then some [(1, (100 : ℚ)), (2, 110), (3, 99)] else none)
      ["A", "B"] "sd" "ed" "SPY" 100000) = some ["A"] ∧
    backtest_equal_weight_portfolio
      (fun t => if t = "A" then some [(1, (100 : ℚ)), (2, 110), (3, 99)] else none)
      ["A", "B"] "sd" "ed" "SPY" 100000 ≠ .ok none := by
  constructor
  · rfl
  · intro h
    have h2 : tickersOf (backtest_equal_weight_portfolio
        (fun t => if t = "A" then some [(1, (100 : ℚ)), (2, 110), (3, 99)] else none)
        ["A", "B"] "sd" "ed" "SPY" 100000) = some ["A"] := rfl
    rw [h] at h2
    simp [tickersOf] at h2

/-- C6 amended: the equal-weight backtest returns the explicit empty result
exactly when no requested portfolio ticker yields usable data (each is the
benchmark symbol or the provider yields nothing or an empty frame); when some
subset of tickers has data the call proceeds and the result's ticker list is
exactly the fetched non-benchmark subset, not an empty/failure value. -/
theorem spec_C6 :
    ∀ (provider : String → Option Series) (tickers : List String) (sd ed bmk : String)
      (cap : ℚ),
    (backtest_equal_weight_portfolio provider tickers sd ed bmk cap = .ok none ↔
      ∀ t ∈ tickers, t = bmk ∨ provider t = none ∨ provider t = some []) ∧
    (∀ r, backtest_equal_weight_portfolio provider tickers sd ed bmk cap = .ok (some r) →
      r.tickers = (hdOf provider tickers bmk).map Prod.fst) := by
  intro provider tickers sd ed bmk cap
  constructor
  · rw [eqw_ok_none_iff, List.isEmpty_iff, alignedDates_hdOf_eq_nil_iff,
      hdOf_eq_nil_iff]
  · intro r h
    obtain ⟨pm, im, _, _, hr⟩ := eqw_ok_some_inv h
    rw [hr]

/-- C6 witness: with data for "A" only, the backtest is not the empty result
and its ticker list is exactly ["A"]. -/
theorem spec_C6_witness :
    (unwrapOk (backtest_equal_weight_portfolio
      (fun t => if t = "A" then some [(1, (100 : ℚ)), (2, 110), (3, 99)] else none)
      ["A", "B"] "sd" "ed" "SPY" 100000)).tickers = ["A"] ∧
    ¬ (backtest_equal_weight_portfolio
      (fun t => if t = "A" then some [(1, (100 : ℚ)), (2, 110), (3, 99)] else none)
      ["A", "B"] "sd" "ed" "SPY" 100000 = .ok none) := by
  have h := spec_C6
    (fun t => if t = "A" then some [(1, (100 : ℚ)), (2, 110), (3, 99)] else none)
    ["A", "B"] "sd" "ed" "SPY" 100000
  constructor
  · have h2 := h.2 (unwrapOk (backtest_equal_weight_portfolio
      (fun t => if t = "A" then some [(1, (100 : ℚ)), (2, 110), (3, 99)] else none)
      ["A", "B"] "sd" "ed" "SPY" 100000)) rfl
    rw [h2]
    rfl
  · intro hnone
    have h3 := h.1.mp hnone "A" (by simp)
    rcases h3 with h3 | h3 | h3
    · exact absurd h3 (by decide)
    · exact absurd h3 (by decide)
    · exact absurd h3 (by decide)

/-- C10: the benchmark is excluded from the portfolio.  In both backtest
modes the benchmark symbol never appears in the result's ticker list, in the
per-instrument metrics, or in the correlation matrix (rows or columns) — even
when the benchmark symbol is a member of the requested ticker set or of the
weight mapping, since `pop` removes it from the price-matrix mapping; and in
both modes the portfolio return series is built exclusively from that
benchmark-free mapping (`eqwReturnsOf` of it in equal-weight mode,
`wtdReturnsOf` of it with the normalized weights in weighted mode), which by
the last conjunct depends only on the provider's data for non-benchmark
symbols — so the benchmark contributes nothing to the portfolio return
series. -/
theorem spec_C10 :
    (∀ (provider : String → Option Series) (tickers : List String) (sd ed bmk : String)
        (cap : ℚ) (r : BacktestResult),
      backtest_equal_weight_portfolio provider tickers sd ed bmk cap = .ok (some r) →
      bmk ∉ r.tickers ∧
      (∀ p ∈ r.individual_metrics, p.1 ≠ bmk) ∧
      (∀ row ∈ r.correlation_matrix, row.1 ≠ bmk ∧ ∀ cell ∈ row.2, cell.1 ≠ bmk) ∧
      r.portfolio_returns = eqwReturnsOf (hdOf provider tickers bmk)
        (alignedDates (hdOf provider tickers bmk))) ∧
    (∀ (provider : String → Option Series) (w : List (String × ℚ)) (sd ed bmk : String)
        (cap : ℚ) (r : BacktestResult),
      backtest_weighted_portfolio provider w sd ed bmk cap = .ok (some r) →
      bmk ∉ r.tickers ∧
      (∀ p ∈ r.individual_metrics, p.1 ≠ bmk) ∧
      (∀ row ∈ r.correlation_matrix, row.1 ≠ bmk ∧ ∀ cell ∈ row.2, cell.1 ≠ bmk) ∧
      (∀ pw, normalizeWeights w = .ok pw →
        r.portfolio_returns = wtdReturnsOf (hdOf provider (pw.map Prod.fst) bmk)
          (alignedDates (hdOf provider (pw.map Prod.fst) bmk)) pw)) ∧
    (∀ (p1 p2 : String → Option Series) (ts : List String) (bmk : String),
      (∀ t, t ≠ bmk → p1 t = p2 t) → hdOf p1 ts bmk = hdOf p2 ts bmk) := by
  have keyTickers : ∀ (provider : String → Option Series) (ts : List String)
      (bmk : String), bmk ∉ (hdOf provider ts bmk).map Prod.fst := by
    intro provider ts bmk hmem
    obtain ⟨p, hp, hfst⟩ := List.mem_map.mp hmem
    exact (mem_hdOf_props hp).1 hfst
  have keyIm : ∀ (provider : String → Option Series) (ts : List String) (bmk : String)
      (im : List (String × List (String × Option ℝ))),
      individualMetricsOf (alignedReturnColumns (hdOf provider ts bmk)
        (alignedDates (hdOf provider ts bmk))) = .ok im →
      ∀ p ∈ im, p.1 ≠ bmk := by
    intro provider ts bmk im him p hp
    obtain ⟨c, hc, hcR⟩ := forall₂_mem_right (individualMetricsOf_ok_forall him) p hp
    obtain ⟨q, hq, hkey⟩ := mem_alignedReturnColumns_key hc
    rw [hcR.2, hkey]
    exact (mem_hdOf_props hq).1
  have keyCorr : ∀ (provider : String → Option Series) (ts : List String) (bmk : String),
      ∀ row ∈ correlationMatrix (alignedReturnColumns (hdOf provider ts bmk)
        (alignedDates (hdOf provider ts bmk))),
      row.1 ≠ bmk ∧ ∀ cell ∈ row.2, cell.1 ≠ bmk := by
    intro provider ts bmk row hrow
    obtain ⟨c, hc, rfl⟩ := List.mem_map.mp hrow
    obtain ⟨q, hq, hkey⟩ := mem_alignedReturnColumns_key hc
    constructor
    · rw [hkey]
      exact (mem_hdOf_props hq).1
    · intro cell hcell
      obtain ⟨c2, hc2, rfl⟩ := List.mem_map.mp hcell
      obtain ⟨q2, hq2, hkey2⟩ := mem_alignedReturnColumns_key hc2
      rw [hkey2]
      exact (mem_hdOf_props hq2).1
  refine ⟨?_, ?_, ?_⟩
  · intro provider tickers sd ed bmk cap r h
    obtain ⟨pm, im, hpm, him, hr⟩ := eqw_ok_some_inv h
    rw [hr]
    dsimp only
    exact ⟨keyTickers provider tickers bmk, keyIm provider tickers bmk im him,
      keyCorr provider tickers bmk, rfl⟩
  · intro provider w sd ed bmk cap r h
    obtain ⟨pw0, pm, im, hnw, hpm, him, hr⟩ := wtd_ok_some_inv h
    rw [hr]
    dsimp only
    refine ⟨keyTickers provider (pw0.map Prod.fst) bmk,
      keyIm provider (pw0.map Prod.fst) bmk im him,
      keyCorr provider (pw0.map Prod.fst) bmk, ?_⟩
    intro pw hpw
    rw [hnw] at hpw
    injection hpw with h2
    subst h2
    rfl
  · intro p1 p2 ts bmk hag
    exact hdOf_invariant hag

/-- C10 witness: an equal-weight backtest whose requested ticker set contains
the benchmark symbol itself ("SPY", which the provider does have data for),
and a weighted backtest whose weight mapping contains the benchmark symbol:
the benchmark is absent from both results' ticker lists, the weighted
portfolio return series is built from the benchmark-free mapping with the
normalized weights, and the portfolio mapping is invariant under replacing
the provider's benchmark data by nothing. -/
theorem spec_C10_witness :
    "SPY" ∉ (unwrapOk (backtest_equal_weight_portfolio
      (fun t => if t = "A" then some [(1, (100 : ℚ)), (2, 110)]
        else if t = "SPY" then some [(1, (50 : ℚ)), (2, 55)] else none)
      ["A", "SPY"] "s" "e" "SPY" 100000)).tickers ∧
    "SPY" ∉ (unwrapOk (backtest_weighted_portfolio
      (fun t => if t = "A" then some [(1, (100 : ℚ)), (2, 110)]
        else if t = "SPY" then some [(1, (50 : ℚ)), (2, 55)] else none)
      [("A", (1 : ℚ)/2), ("SPY", 1/2)] "s" "e" "SPY" 100000)).tickers ∧
    (unwrapOk (backtest_weighted_portfolio
      (fun t => if t = "A" then some [(1, (100 : ℚ)), (2, 110)]
        else if t = "SPY" then some [(1, (50 : ℚ)), (2, 55)] else none)
      [("A", (1 : ℚ)/2), ("SPY", 1/2)] "s" "e" "SPY" 100000)).portfolio_returns =
      wtdReturnsOf
        (hdOf (fun t => if t = "A" then some [(1, (100 : ℚ)), (2, 110)]
            else if t = "SPY" then some [(1, (50 : ℚ)), (2, 55)] else none)
          ([("A", (1 : ℚ)/2), ("SPY", 1/2)].map Prod.fst) "SPY")
        (alignedDates (hdOf (fun t => if t = "A" then some [(1, (100 : ℚ)), (2, 110)]
            else if t = "SPY" then some [(1, (50 : ℚ)), (2, 55)] else none)
          ([("A", (1 : ℚ)/2), ("SPY", 1/2)].map Prod.fst) "SPY"))
        [("A", (1 : ℚ)/2), ("SPY", 1/2)] ∧
    hdOf (fun t => if t = "A" then some [(1, (100 : ℚ)), (2, 110)]
        else if t = "SPY" then some [(1, (50 : ℚ)), (2, 55)] else none)
      ["A", "SPY"] "SPY" =
    hdOf (fun t => if t = "A" then some [(1, (100 : ℚ)), (2, 110)] else none)
      ["A", "SPY"] "SPY" := by
  have hnw : normalizeWeights [("A", (1 : ℚ)/2), ("SPY", 1/2)] =
      .ok [("A", (1 : ℚ)/2), ("SPY", 1/2)] := by
    norm_num [normalizeWeights]
  have hw : backtest_weighted_portfolio
      (fun t => if t = "A" then some [(1, (100 : ℚ)), (2, 110)]
        else if t = "SPY" then some [(1, (50 : ℚ)), (2, 55)] else none)
      [("A", (1 : ℚ)/2), ("SPY", 1/2)] "s" "e" "SPY" 100000 =
    .ok (some (unwrapOk (backtest_weighted_portfolio
      (fun t => if t = "A" then some [(1, (100 : ℚ)), (2, 110)]
        else if t = "SPY" then some [(1, (50 : ℚ)), (2, 55)] else none)
      [("A", (1 : ℚ)/2), ("SPY", 1/2)] "s" "e" "SPY" 100000))) := by
    unfold backtest_weighted_portfolio
    rw [hnw]
    rfl
  have hwtd := spec_C10.2.1
    (fun t => if t = "A" then some [(1, (100 : ℚ)), (2, 110)]
      else if t = "SPY" then some [(1, (50 : ℚ)), (2, 55)] else none)
    [("A", (1 : ℚ)/2), ("SPY", 1/2)] "s" "e" "SPY" 100000
    (unwrapOk (backtest_weighted_portfolio
      (fun t => if t = "A" then some [(1, (100 : ℚ)), (2, 110)]
        else if t = "SPY" then some [(1, (50 : ℚ)), (2, 55)] else none)
      [("A", (1 : ℚ)/2), ("SPY", 1/2)] "s" "e" "SPY" 100000)) hw
  refine ⟨?_, hwtd.1, hwtd.2.2.2 [("A", (1 : ℚ)/2), ("SPY", 1/2)] hnw, ?_⟩
  · exact (spec_C10.1
      (fun t => if t = "A" then some [(1, (100 : ℚ)), (2, 110)]
        else if t = "SPY" then some [(1, (50 : ℚ)), (2, 55)] else none)
      ["A", "SPY"] "s" "e" "SPY" 100000
      (unwrapOk (backtest_equal_weight_portfolio
        (fun t => if t = "A" then some [(1, (100 : ℚ)), (2, 110)]
          else if t = "SPY" then some [(1, (50 : ℚ)), (2, 55)] else none)
        ["A", "SPY"] "s" "e" "SPY" 100000)) rfl).1
  · apply spec_C10.2.2
    intro t ht
    by_cases hA : t = "A" <;> simp [hA, ht]

/-- C3 counterexample: the all-zero two-ticker weight mapping sums to 0, which
deviates from 1 by more than the 1% tolerance, yet the weighted backtest does
not replace each weight by `w / s`: the renormalization comprehension of
line 266 raises `ZeroDivisionError`, so no renormalized weights summing to 1
are produced. -/
theorem spec_C3_cex :
    (([("A", (0 : ℚ)), ("B", 0)].map Prod.snd).sum = 0) ∧
    |(([("A", (0 : ℚ)), ("B", 0)].map Prod.snd).sum - 1)| > 1/100 ∧
    normalizeWeights [("A", (0 : ℚ)), ("B", 0)] = .error "ZeroDivisionError" := by
  refine ⟨by norm_num, by norm_num, ?_⟩
  unfold normalizeWeights
  rw [if_pos (by norm_num), if_pos ⟨by norm_num, by simp⟩]

/-- C3 amended: provided the weight values sum to a nonzero `s` with
`|s - 1| > 0.01`, every weight is replaced by `w / s`, the renormalized
weights sum to exactly 1 and pairwise ratios are preserved; when
`|s - 1| ≤ 0.01` the weights are used unchanged; and a successful weighted
backtest stores exactly the normalized mapping.  (For `s = 0` and a non-empty
mapping the code instead raises `ZeroDivisionError`, see the
counterexample.) -/
theorem spec_C3 : ∀ (w : List (String × ℚ)),
    ((|(w.map Prod.snd).sum - 1| > 1/100) → (w.map Prod.snd).sum ≠ 0 →
      normalizeWeights w = .ok (w.map (fun p => (p.1, p.2 / (w.map Prod.snd).sum))) ∧
      ((w.map (fun p => (p.1, p.2 / (w.map Prod.snd).sum))).map Prod.snd).sum = 1 ∧
      (∀ p ∈ w, ∀ q ∈ w,
        (p.2 / (w.map Prod.snd).sum) * q.2 = (q.2 / (w.map Prod.snd).sum) * p.2)) ∧
    ((|(w.map Prod.snd).sum - 1| ≤ 1/100) → normalizeWeights w = .ok w) ∧
    (∀ (provider : String → Option Series) (sd ed bmk : String) (cap : ℚ)
        (r : BacktestResult),
      backtest_weighted_portfolio provider w sd ed bmk cap = .ok (some r) →
      r.portfolio_weights = (normalizeWeights w).toOption) := by
  intro w
  refine ⟨?_, ?_, ?_⟩
  · intro h1 hs
    refine ⟨?_, ?_, ?_⟩
    · unfold normalizeWeights
      rw [if_pos h1, if_neg (fun hc => hs hc.1)]
    · have hmap : (w.map (fun p => (p.1, p.2 / (w.map Prod.snd).sum))).map Prod.snd =
          (w.map Prod.snd).map (fun x => x / (w.map Prod.snd).sum) := by
        simp [List.map_map]
      rw [hmap]
      rw [show ((w.map Prod.snd).map (fun x => x / (w.map Prod.snd).sum)) =
          ((w.map Prod.snd).map (fun x => x * ((w.map Prod.snd).sum)⁻¹)) by
        simp [div_eq_mul_inv]]
      rw [List.sum_map_mul_right, List.map_id']
      exact mul_inv_cancel₀ hs
    · intro p hp q hq
      ring
  · intro h1
    unfold normalizeWeights
    rw [if_neg (not_lt.mpr h1)]
  · intro provider sd ed bmk cap r h
    obtain ⟨pw, pm, im, hnw, _, _, hr⟩ := wtd_ok_some_inv h
    rw [hr, hnw]
    rfl

/-- C3 witness: renormalization at weights summing to 0.97, the unchanged
branch at weights summing to 1, and the stored `portfolio_weights` of a
concrete successful weighted backtest. -/
theorem spec_C3_witness :
    normalizeWeights [("A", (47 : ℚ)/100), ("B", 1/2)] =
      .ok ([("A", (47 : ℚ)/100), ("B", 1/2)].map
        (fun p => (p.1, p.2 / (([("A", (47 : ℚ)/100), ("B", 1/2)].map Prod.snd).sum)))) ∧
    (([("A", (47 : ℚ)/100), ("B", 1/2)].map
        (fun p => (p.1, p.2 / (([("A", (47 : ℚ)/100), ("B", 1/2)].map Prod.snd).sum)))).map
          Prod.snd).sum = 1 ∧
    normalizeWeights [("A", (1 : ℚ))] = .ok [("A", 1)] ∧
    (unwrapOk (backtest_weighted_portfolio
        (fun t => if t = "A" then some [(1, (100 : ℚ)), (2, 101)] else none)
        [("A", 1)] "s" "e" "SPY" 100000)).portfolio_weights =
      (normalizeWeights [("A", (1 : ℚ))]).toOption := by
  have h1 := (spec_C3 [("A", (47 : ℚ)/100), ("B", 1/2)]).1
    (by norm_num [abs_of_pos, abs_sub_comm]) (by norm_num)
  have h2 := (spec_C3 [("A", (1 : ℚ))]).2.1 (by norm_num)
  have hw : backtest_weighted_portfolio
      (fun t => if t = "A" then some [(1, (100 : ℚ)), (2, 101)] else none)
      [("A", 1)] "s" "e" "SPY" 100000 =
    .ok (some (unwrapOk (backtest_weighted_portfolio
      (fun t => if t = "A" then some [(1, (100 : ℚ)), (2, 101)] else none)
      [("A", 1)] "s" "e" "SPY" 100000))) := by
    unfold backtest_weighted_portfolio
    rw [h2]
    rfl
  exact ⟨h1.1, h1.2.1, h2,
    (spec_C3 [("A", (1 : ℚ))]).2.2
      (fun t => if t = "A" then some [(1, (100 : ℚ)), (2, 101)] else none)
      "s" "e" "SPY" 100000
      (unwrapOk (backtest_weighted_portfolio
        (fun t => if t = "A" then some [(1, (100 : ℚ)), (2, 101)] else none)
        [("A", 1)] "s" "e" "SPY" 100000)) hw⟩

/-- C5: the zero-volatility guard.  For any dated return series of length at
least two whose values are all the constant `c`, and any benchmark argument,
the returned record has `volatility = 0` and `sharpe_ratio = 0` (finite reals,
not `NaN`): line 97 replaces the `0/0` by the literal 0. -/
theorem spec_C5 : ∀ (rs : Series) (c : ℚ) (b : Option Series),
    2 ≤ rs.length →
    rs.map Prod.snd = List.replicate rs.length c →
    lookupMetric "volatility" (calculate_performance_metrics rs b) = some (some 0) ∧
    lookupMetric "sharpe_ratio" (calculate_performance_metrics rs b) = some (some 0) := by
  intro rs c b hlen hrep
  have hv : volatilityOf (rs.map Prod.snd) = some 0 := by
    rw [hrep]
    exact volatilityOf_replicate rs.length c hlen
  have hlen0 : ¬ ((rs.map Prod.snd).length = 0) := by
    simp only [List.length_map]
    omega
  unfold calculate_performance_metrics
  rw [if_neg hlen0]
  simp only [lookupMetric]
  constructor
  · have h1 : (baseMetrics (rs.map Prod.snd)).lookup "volatility" =
        some ((volatilityOf (rs.map Prod.snd)).map (fun v => v * 100)) := rfl
    rw [hv] at h1
    norm_num at h1
    exact lookup_append_some h1
  · have h1 : (baseMetrics (rs.map Prod.snd)).lookup "sharpe_ratio" =
        some (some (ratioGuard (annualizedReturnOf (rs.map Prod.snd))
          (volatilityOf (rs.map Prod.snd)))) := rfl
    rw [hv, ratioGuard_zero] at h1
    exact lookup_append_some h1

/-- C5 witness: the guard statement instantiated at the constant two-day
series with value `0.001` and no benchmark. -/
theorem spec_C5_witness :
    lookupMetric "volatility" (calculate_performance_metrics
      [((1 : Nat), (1 : ℚ)/1000), ((2 : Nat), (1 : ℚ)/1000)] none) = some (some 0) ∧
    lookupMetric "sharpe_ratio" (calculate_performance_metrics
      [((1 : Nat), (1 : ℚ)/1000), ((2 : Nat), (1 : ℚ)/1000)] none) = some (some 0) :=
  spec_C5 [((1 : Nat), (1 : ℚ)/1000), ((2 : Nat), (1 : ℚ)/1000)] ((1 : ℚ)/1000) none
    (by decide) rfl

/-- C7 witness: the amended record-shape statement instantiated at the
concrete one-day series `[(1, 1/100)]`. -/
theorem spec_C7_witness :
    metricKeys (calculate_performance_metrics [((1 : Nat), (1 : ℚ)/100)] none) =
      some ["total_return", "annualized_return", "volatility", "sharpe_ratio",
            "sortino_ratio", "max_drawdown", "win_rate", "best_day", "worst_day"] ∧
    "downside_volatility" ∉
      ["total_return", "annualized_return", "volatility", "sharpe_ratio",
       "sortino_ratio", "max_drawdown", "win_rate", "best_day", "worst_day"] :=
  ⟨(spec_C7 [((1 : Nat), (1 : ℚ)/100)] (by simp)).1,
   (spec_C7 [((1 : Nat), (1 : ℚ)/100)] (by simp)).2.1⟩

end Alpha
